import Mathlib

/-!
Verification of the chunked remote-upload engine in
`src/clp_logging/remote_handlers.py` (class `CLPRemoteHandler`).

The embedding models Python strings as `List Char`, file bytes as `List Nat`,
the S3 client as an oracle (`S3Model`) whose per-call outcomes may succeed or
raise, the wall clock as a stream of timestamps, and the SHA256+base64 digest
as an abstract function (no claim depends on digest values).  Exceptions are
modelled by `PyErr`; `PyErr.partExc i e` stands for the generic
`Exception(f'Multipart Upload on Part i: e')` raised by `_upload_part`
(its Python type is `Exception`, so it is not caught by
`except NoCredentialsError`).  The drive loop of `multipart_upload` is given
explicit fuel; exhaustion is reported as `LoopOut.oot` and never identified
with normal termination.  Every S3 call that the code issues is recorded in a
trace, in order, whether it succeeds or raises.
-/

set_option maxHeartbeats 1000000
set_option maxRecDepth 8000

namespace CLP

abbrev PyStr := List Char
abbrev Bytes := List Nat

/-- Python exception values raised by the handler or the storage service. -/
inductive PyErr where
  | noCredentials
  | valueErr (msg : PyStr)
  | exc (msg : PyStr)
  | partExc (idx : Nat) (cause : PyErr)
  deriving DecidableEq

def msgNoInputFile : PyStr := "No input file.".toList

def msgAlreadyInProgress : PyStr :=
  "An upload is already in progress. Cannot initiate another upload.".toList

def msgNoUploadProcess : PyStr := "No upload process.".toList

def msgNoUploadToComplete : PyStr := "No upload process to complete.".toList

/-- One `datetime.datetime.now()` sample.  Fields are the calendar components
used by the code (`year`, `month`, `day` for the remote folder, all six for
`strftime("%Y-%m-%d-%H%M%S")`). -/
structure Timestamp where
  year : Nat
  month : Nat
  day : Nat
  hour : Nat
  minute : Nat
  second : Nat

/-- Response of `s3_client.upload_part` (the fields the code reads). -/
structure UploadResp where
  eTag : PyStr
  checksumSHA256 : PyStr
  deriving DecidableEq

/-- An element of `self.uploaded_parts`. -/
structure PartRecord where
  partNumber : Nat
  eTag : PyStr
  checksumSHA256 : PyStr
  deriving DecidableEq

/-- An S3 API call issued by the handler, with its arguments. -/
inductive S3Call where
  | createMultipartUpload (bucket : PyStr) (key : Option PyStr)
  | uploadPart (bucket : PyStr) (key : Option PyStr) (body : Bytes)
      (partNumber : Nat) (uploadId : Option Nat) (checksumSHA256 : PyStr)
  | completeMultipartUpload (bucket : PyStr) (key : Option PyStr)
      (uploadId : Option Nat) (parts : List PartRecord)
  | abortMultipartUpload (bucket : PyStr) (key : Option PyStr) (uploadId : Option Nat)
  | headObject (bucket : PyStr) (key : Option PyStr)
  deriving DecidableEq

/-- Oracle describing the storage service: given the trace of calls already
issued and the call being made, each method either returns or raises.
(`head_object`'s outcome is only printed by the code, so it needs no oracle.) -/
structure S3Model where
  createRet : List S3Call → S3Call → Except PyErr Nat
  uploadRet : List S3Call → S3Call → Except PyErr UploadResp
  completeRet : List S3Call → S3Call → Except PyErr Unit
  abortRet : List S3Call → S3Call → Except PyErr Unit

/-- External environment: service oracle, clock stream, digest function. -/
structure Env where
  svc : S3Model
  clock : Nat → Timestamp
  sha256b64 : Bytes → PyStr

/-- `self.multipart_upload_config` (`size`/`index`/`pos`).  `size` and `pos`
are Python ints and may in principle go negative (the completion path assigns
`file_size - pos`), hence `Int`. -/
structure Config where
  size : Int
  index : Nat
  pos : Int
  deriving DecidableEq

/-- The mutable attributes of `CLPRemoteHandler`. -/
structure HandlerState where
  bucket : PyStr
  log_name : Option PyStr
  log_path : Option PyStr
  remote_folder_path : Option PyStr
  obj_key : Option PyStr
  multipart_upload_config : Config
  uploaded_parts : List PartRecord
  upload_id : Option Nat
  remote_file_count : Nat
  upload_in_progress : Bool
  deriving DecidableEq

/-- Handler state plus the external world it touches: the local file's bytes,
the trace of S3 calls issued so far, and the number of clock samples taken. -/
structure World where
  h : HandlerState
  file : Bytes
  trace : List S3Call
  clk : Nat
  deriving DecidableEq

/-- `CLPRemoteHandler.__init__` (the S3 clients live in `Env`). -/
def mkHandler (bucket : PyStr) : HandlerState :=
  { bucket := bucket
    log_name := none
    log_path := none
    remote_folder_path := none
    obj_key := none
    multipart_upload_config := { size := 1024 * 1024 * 5, index := 1, pos := 0 }
    uploaded_parts := []
    upload_id := none
    remote_file_count := 0
    upload_in_progress := false }

/-- Decimal digit character (used for zero-padded `strftime` fields). -/
def digitChar10 (n : Nat) : Char := Char.ofNat (48 + n % 10)

/-- Two-digit zero-padded decimal rendering (truncating; faithful to
`strftime` on the in-range values `datetime` produces). -/
def pad2 (n : Nat) : PyStr := [digitChar10 (n / 10), digitChar10 n]

/-- Four-digit zero-padded decimal rendering for `%Y`. -/
def pad4 (n : Nat) : PyStr :=
  [digitChar10 (n / 1000), digitChar10 (n / 100), digitChar10 (n / 10), digitChar10 n]

/-- `timestamp.strftime("%Y-%m-%d-%H%M%S")`: always 17 characters. -/
def strftime17 (t : Timestamp) : PyStr :=
  pad4 t.year ++ '-' :: pad2 t.month ++ '-' :: pad2 t.day ++ '-' ::
    (pad2 t.hour ++ pad2 t.minute ++ pad2 t.second)

/-- Base-10 digits, least significant first, via explicit fuel (structural). -/
def digitsRevFuel : Nat → Nat → List Nat
  | 0, _ => []
  | _ + 1, 0 => []
  | fuel + 1, n + 1 => (n + 1) % 10 :: digitsRevFuel fuel ((n + 1) / 10)

/-- Python `str(n)` for a natural number. -/
def pyNat (n : Nat) : PyStr :=
  if n = 0 then ['0'] else (digitsRevFuel n n).reverse.map digitChar10

/-- Python `str.find(ch)`: index of the first occurrence, `none` for -1. -/
def strFind (t : Char) : PyStr → Option Nat
  | [] => none
  | a :: r => if a == t then some 0 else (strFind t r).map (· + 1)

/-- `pathlib.Path(p).name`: the part after the last slash. -/
def pathName (p : PyStr) : PyStr := (p.reverse.takeWhile (· != '/')).reverse

/-- `f"logs/{timestamp.year}/{timestamp.month}/{timestamp.day}"`. -/
def folderOf (t : Timestamp) : PyStr :=
  "logs/".toList ++ pyNat t.year ++ '/' :: pyNat t.month ++ '/' :: pyNat t.day

/-- Python f-string interpolation of an optional string (`None` prints as "None"). -/
def optStr : Option PyStr → PyStr
  | none => "None".toList
  | some s => s

/-- `upload_time` as computed by `_remote_log_naming`: the formatted timestamp,
with `-count` appended when the rollover count is nonzero. -/
def uploadTimeOf (ts : Timestamp) (count : Nat) : PyStr :=
  strftime17 ts ++ (if count ≠ 0 then '-' :: pyNat count else [])

/-- Closed form of the key `_remote_log_naming` builds from a folder, a base
file name, a timestamp and a rollover count. -/
def keyOf (folder name : PyStr) (ts : Timestamp) (count : Nat) : PyStr :=
  match strFind '.' name with
  | some i => folder ++ '/' :: ("log_".toList ++ uploadTimeOf ts count ++ name.drop i)
  | none => folder ++ '/' :: (uploadTimeOf ts count ++ '_' :: name)

/-- `keyOf` at the folder the code derives from the same timestamp. -/
def namedKey (name : PyStr) (ts : Timestamp) (count : Nat) : PyStr :=
  keyOf (folderOf ts) name ts count

/-- `CLPRemoteHandler._remote_log_naming`. -/
def remote_log_naming (h : HandlerState) (ts : Timestamp) : Except PyErr PyStr :=
  match h.log_name with
  | none => .error (.valueErr msgNoInputFile)
  | some name =>
    let upload_time := strftime17 ts
    let upload_time :=
      if h.remote_file_count ≠ 0 then upload_time ++ '-' :: pyNat h.remote_file_count
      else upload_time
    let new_filename :=
      match strFind '.' name with
      | some i => "log_".toList ++ upload_time ++ name.drop i
      | none => upload_time ++ '_' :: name
    .ok (optStr h.remote_folder_path ++ '/' :: new_filename)

/-- `file.seek(pos); file.read(n)` (a negative `n` reads to end of file). -/
def readAt (file : Bytes) (pos n : Int) : Bytes :=
  let rest := file.drop pos.toNat
  if n < 0 then rest else rest.take n.toNat

/-- Python truthiness of `self.upload_id` (`None` and `0` are falsy). -/
def truthy : Option Nat → Bool
  | none => false
  | some n => n != 0

/-- `CLPRemoteHandler._upload_part`.  The local file is present in the model,
so the `open`/`read` try-block cannot raise here; the service call may.  On a
service failure the code calls `abort_multipart_upload` inside the `except`
block with no guard of its own, so a failure of that abort call replaces the
part error (Python propagates the newer exception). -/
def upload_part (env : Env) (w : World) : Except PyErr PartRecord × World :=
  match w.h.log_path with
  | none => (.error (.valueErr msgNoInputFile), w)
  | some _ =>
    let upload_data := readAt w.file w.h.multipart_upload_config.pos w.h.multipart_upload_config.size
    let cks := env.sha256b64 upload_data
    let call := S3Call.uploadPart w.h.bucket w.h.obj_key upload_data
      w.h.multipart_upload_config.index w.h.upload_id cks
    let w1 : World := { w with trace := w.trace ++ [call] }
    match env.svc.uploadRet w.trace call with
    | .ok resp =>
      (.ok { partNumber := w.h.multipart_upload_config.index
             eTag := resp.eTag
             checksumSHA256 := resp.checksumSHA256 }, w1)
    | .error e =>
      let acall := S3Call.abortMultipartUpload w.h.bucket w.h.obj_key w.h.upload_id
      let w2 : World := { w1 with trace := w1.trace ++ [acall] }
      match env.svc.abortRet w1.trace acall with
      | .ok _ => (.error (.partExc w.h.multipart_upload_config.index e), w2)
      | .error e2 => (.error e2, w2)

/-- `CLPRemoteHandler.initiate_upload`. -/
def initiate_upload (env : Env) (w : World) (logPath : PyStr) : Except PyErr Unit × World :=
  if w.h.upload_in_progress then (.error (.exc msgAlreadyInProgress), w)
  else
    let ts := env.clock w.clk
    let h1 : HandlerState :=
      { w.h with
        log_path := some logPath
        log_name := some (pathName logPath)
        upload_in_progress := true
        remote_folder_path := some (folderOf ts) }
    match remote_log_naming h1 ts with
    | .error e => (.error e, { w with h := h1, clk := w.clk + 1 })
    | .ok key =>
      let h2 : HandlerState := { h1 with obj_key := some key }
      let call := S3Call.createMultipartUpload h2.bucket h2.obj_key
      let w1 : World := { w with h := h2, clk := w.clk + 1, trace := w.trace ++ [call] }
      match env.svc.createRet w.trace call with
      | .ok uid => (.ok (), { w1 with h := { h2 with upload_id := some uid } })
      | .error e => (.error e, w1)

/-- Outcome of the drive loop: normal exit, a raised exception, or fuel
exhaustion (the latter is a modelling artifact, never identified with
termination). -/
inductive LoopOut where
  | done
  | failed (e : PyErr)
  | oot
  deriving DecidableEq

/-- The `while` loop body of `CLPRemoteHandler.multipart_upload`, including
the part-count rollover (`index >= 10000`): finalize the current object,
bump `remote_file_count`, take a fresh timestamp, recompute folder and key,
reset `index` to 1 and the parts list to empty, create a new upload.
`fileSize` is the `stat` snapshot taken before the loop. -/
def driveLoop (env : Env) (fileSize : Int) : Nat → World → LoopOut × World
  | 0, w => (.oot, w)
  | fuel + 1, w =>
    if fileSize - w.h.multipart_upload_config.pos ≥ w.h.multipart_upload_config.size then
      match upload_part env w with
      | (.error e, w1) => (.failed e, w1)
      | (.ok pr, w1) =>
        let cfg := w1.h.multipart_upload_config
        let h2 : HandlerState :=
          { w1.h with
            multipart_upload_config := { cfg with index := cfg.index + 1, pos := cfg.pos + cfg.size }
            uploaded_parts := w1.h.uploaded_parts ++ [pr] }
        let w2 : World := { w1 with h := h2 }
        if h2.multipart_upload_config.index ≥ 10000 then
          let ccall := S3Call.completeMultipartUpload h2.bucket h2.obj_key h2.upload_id
            h2.uploaded_parts
          let w3 : World := { w2 with trace := w2.trace ++ [ccall] }
          match env.svc.completeRet w2.trace ccall with
          | .error e => (.failed e, w3)
          | .ok _ =>
            let ts := env.clock w3.clk
            let h4 : HandlerState :=
              { h2 with
                remote_file_count := h2.remote_file_count + 1
                remote_folder_path := some (folderOf ts) }
            match remote_log_naming h4 ts with
            | .error e => (.failed e, { w3 with h := h4, clk := w3.clk + 1 })
            | .ok key =>
              let h5 : HandlerState :=
                { h4 with
                  obj_key := some key
                  multipart_upload_config := { h4.multipart_upload_config with index := 1 }
                  uploaded_parts := [] }
              let ncall := S3Call.createMultipartUpload h5.bucket h5.obj_key
              let w4 : World := { w3 with h := h5, clk := w3.clk + 1, trace := w3.trace ++ [ncall] }
              match env.svc.createRet w3.trace ncall with
              | .error e => (.failed e, w4)
              | .ok uid => driveLoop env fileSize fuel { w4 with h := { h5 with upload_id := some uid } }
        else driveLoop env fileSize fuel w2
    else (.done, w)

/-- `CLPRemoteHandler.multipart_upload`: precondition guards, the drive loop,
and its two exception handlers (`NoCredentialsError` re-raised bare with no
abort; anything else aborted then re-raised, an abort failure replacing it). -/
def multipart_upload (env : Env) (fuel : Nat) (w : World) : LoopOut × World :=
  if !truthy w.h.upload_id then (.failed (.exc msgNoUploadProcess), w)
  else
    match w.h.log_path with
    | none => (.failed (.valueErr msgNoInputFile), w)
    | some _ =>
      let fileSize : Int := w.file.length
      match driveLoop env fileSize fuel w with
      | (.done, w1) => (.done, w1)
      | (.oot, w1) => (.oot, w1)
      | (.failed e, w1) =>
        match e with
        | .noCredentials => (.failed .noCredentials, w1)
        | _ =>
          let acall := S3Call.abortMultipartUpload w1.h.bucket w1.h.obj_key w1.h.upload_id
          let w2 : World := { w1 with trace := w1.trace ++ [acall] }
          match env.svc.abortRet w1.trace acall with
          | .ok _ => (.failed e, w2)
          | .error e2 => (.failed e2, w2)

/-- `CLPRemoteHandler.complete_upload`: upload the remaining segment (after
assigning `config["size"] := file_size - pos`, which persists), abort and
re-raise on failure there, then finalize (no abort guard), `head_object`
(outcome only printed), and reset `upload_in_progress`/`upload_id`/`obj_key`. -/
def complete_upload (env : Env) (w : World) : Except PyErr Unit × World :=
  if !truthy w.h.upload_id then (.error (.exc msgNoUploadToComplete), w)
  else
    match w.h.log_path with
    | none => (.error (.valueErr msgNoInputFile), w)
    | some _ =>
      let fileSize : Int := w.file.length
      let step1 : Except PyErr Unit × World :=
        if fileSize - w.h.multipart_upload_config.pos < w.h.multipart_upload_config.size then
          let h1 : HandlerState :=
            { w.h with
              multipart_upload_config :=
                { w.h.multipart_upload_config with
                  size := fileSize - w.h.multipart_upload_config.pos } }
          let w1 : World := { w with h := h1 }
          match upload_part env w1 with
          | (.error e, w2) => (.error e, w2)
          | (.ok pr, w2) =>
            let h3 : HandlerState :=
              { w2.h with
                multipart_upload_config :=
                  { w2.h.multipart_upload_config with
                    index := w2.h.multipart_upload_config.index + 1 }
                uploaded_parts := w2.h.uploaded_parts ++ [pr] }
            (.ok (), { w2 with h := h3 })
        else (.ok (), w)
      match step1 with
      | (.error e, w1) =>
        let acall := S3Call.abortMultipartUpload w1.h.bucket w1.h.obj_key w1.h.upload_id
        let w2 : World := { w1 with trace := w1.trace ++ [acall] }
        match env.svc.abortRet w1.trace acall with
        | .ok _ => (.error e, w2)
        | .error e2 => (.error e2, w2)
      | (.ok _, w1) =>
        let ccall := S3Call.completeMultipartUpload w1.h.bucket w1.h.obj_key w1.h.upload_id
          w1.h.uploaded_parts
        let w2 : World := { w1 with trace := w1.trace ++ [ccall] }
        match env.svc.completeRet w1.trace ccall with
        | .error e => (.error e, w2)
        | .ok _ =>
          let hcall := S3Call.headObject w2.h.bucket w2.h.obj_key
          let w3 : World := { w2 with trace := w2.trace ++ [hcall] }
          let h4 : HandlerState :=
            { w3.h with upload_in_progress := false, upload_id := none, obj_key := none }
          (.ok (), { w3 with h := h4 })

/-- One driver call with enough fuel for any terminating run: with a positive
chunk size the loop iterates at most `file.length` times. -/
def drive (env : Env) (w : World) : LoopOut × World :=
  multipart_upload env (w.file.length + 1) w

/-- Repeated driver calls (the caller triggers `multipart_upload` repeatedly). -/
def drivesN (env : Env) : Nat → World → LoopOut × World
  | 0, w => (.done, w)
  | n + 1, w =>
    match drive env w with
    | (.done, w1) => drivesN env n w1
    | r => r

/-- A freshly constructed handler whose configured chunk size is `c`, watching
a file with the given bytes. -/
def freshWorld (bucket : PyStr) (file : Bytes) (c : Int) : World :=
  { h := { mkHandler bucket with multipart_upload_config := { size := c, index := 1, pos := 0 } }
    file := file
    trace := []
    clk := 0 }

/-- Outcome of a composed run. -/
inductive RunRes where
  | ok
  | err (e : PyErr)
  | oot
  deriving DecidableEq

/-- A full run from a fresh handler: `initiate_upload`, then `n + 1` driver
calls, then `complete_upload`. -/
def runIDC (env : Env) (n : Nat) (bucket logPath : PyStr) (file : Bytes) (c : Int) :
    RunRes × World :=
  let w0 := freshWorld bucket file c
  match initiate_upload env w0 logPath with
  | (.error e, w) => (.err e, w)
  | (.ok _, w1) =>
    match drivesN env (n + 1) w1 with
    | (.failed e, w2) => (.err e, w2)
    | (.oot, w2) => (.oot, w2)
    | (.done, w2) =>
      match complete_upload env w2 with
      | (.error e, w3) => (.err e, w3)
      | (.ok _, w3) => (.ok, w3)

/-- Service oracle on which every call succeeds (upload id 1, empty ETag). -/
def okSvc : S3Model :=
  { createRet := fun _ _ => .ok 1
    uploadRet := fun _ _ => .ok { eTag := [], checksumSHA256 := [] }
    completeRet := fun _ _ => .ok ()
    abortRet := fun _ _ => .ok () }

/-- Oracle on which every `upload_part` call raises `e` (all else succeeds). -/
def failUploadSvc (e : PyErr) : S3Model :=
  { okSvc with uploadRet := fun _ _ => .error e }

/-- Oracle on which `upload_part` raises `e` and `abort_multipart_upload`
raises `e2`. -/
def failUploadAbortSvc (e e2 : PyErr) : S3Model :=
  { okSvc with uploadRet := fun _ _ => .error e, abortRet := fun _ _ => .error e2 }

def okEnv (clock : Nat → Timestamp) (sha : Bytes → PyStr) : Env :=
  { svc := okSvc, clock := clock, sha256b64 := sha }

def failEnvOf (e : PyErr) (clock : Nat → Timestamp) (sha : Bytes → PyStr) : Env :=
  { svc := failUploadSvc e, clock := clock, sha256b64 := sha }

def failAbortEnvOf (e e2 : PyErr) (clock : Nat → Timestamp) (sha : Bytes → PyStr) : Env :=
  { svc := failUploadAbortSvc e e2, clock := clock, sha256b64 := sha }

/-- State change of one successful loop iteration of `multipart_upload` under
`okSvc` (upload one chunk, advance `index` and `pos`, append the record and
the call), before the ceiling check. -/
def okStepWorld (env : Env) (w : World) : World :=
  let body := readAt w.file w.h.multipart_upload_config.pos w.h.multipart_upload_config.size
  { w with
    h := { w.h with
      multipart_upload_config := { w.h.multipart_upload_config with
        index := w.h.multipart_upload_config.index + 1
        pos := w.h.multipart_upload_config.pos + w.h.multipart_upload_config.size }
      uploaded_parts := w.h.uploaded_parts ++
        [{ partNumber := w.h.multipart_upload_config.index, eTag := [], checksumSHA256 := [] }] }
    trace := w.trace ++ [S3Call.uploadPart w.h.bucket w.h.obj_key body
      w.h.multipart_upload_config.index w.h.upload_id (env.sha256b64 body)] }

/-- State change of a rollover under `okSvc` for a handler whose `log_name`
is `some nm`: finalize the current object, bump the rollover count, take a
fresh timestamp, recompute folder and key, reset `index` and the parts list,
create the successor upload. -/
def okRollWorld (env : Env) (nm : PyStr) (w : World) : World :=
  let ts := env.clock w.clk
  let key := keyOf (folderOf ts) nm ts (w.h.remote_file_count + 1)
  { w with
    h := { w.h with
      remote_file_count := w.h.remote_file_count + 1
      remote_folder_path := some (folderOf ts)
      obj_key := some key
      multipart_upload_config := { w.h.multipart_upload_config with index := 1 }
      uploaded_parts := []
      upload_id := some 1 }
    trace := w.trace ++
      [S3Call.completeMultipartUpload w.h.bucket w.h.obj_key w.h.upload_id w.h.uploaded_parts,
       S3Call.createMultipartUpload w.h.bucket (some key)]
    clk := w.clk + 1 }

/-- Body sizes of the `upload_part` calls in a trace, in order. -/
def uploadBodyLens (tr : List S3Call) : List Nat :=
  tr.filterMap fun c =>
    match c with
    | .uploadPart _ _ body _ _ _ => some body.length
    | _ => none

/-- Part numbers of the `upload_part` calls in a trace, in order. -/
def uploadNums (tr : List S3Call) : List Nat :=
  tr.filterMap fun c =>
    match c with
    | .uploadPart _ _ _ n _ _ => some n
    | _ => none

/-- Part-number lists of the `complete_multipart_upload` calls in a trace. -/
def finalizePartNums (tr : List S3Call) : List (List Nat) :=
  tr.filterMap fun c =>
    match c with
    | .completeMultipartUpload _ _ _ parts => some (parts.map (·.partNumber))
    | _ => none

/-- The `abort_multipart_upload` calls in a trace. -/
def abortCalls (tr : List S3Call) : List S3Call :=
  tr.filter fun c =>
    match c with
    | .abortMultipartUpload _ _ _ => true
    | _ => false

/-- Number of `create_multipart_upload` calls in a trace. -/
def createCount (tr : List S3Call) : Nat :=
  (tr.filter fun c =>
    match c with
    | .createMultipartUpload _ _ => true
    | _ => false).length

/-- Part numbers of the `upload_part` calls addressed to a given key. -/
def uploadNumsToKey (tr : List S3Call) (k : Option PyStr) : List Nat :=
  tr.filterMap fun c =>
    match c with
    | .uploadPart _ key _ n _ _ => if key = k then some n else none
    | _ => none

/-- Part-number lists of the `complete_multipart_upload` calls addressed to a
given key. -/
def finalizesToKey (tr : List S3Call) (k : Option PyStr) : List (List Nat) :=
  tr.filterMap fun c =>
    match c with
    | .completeMultipartUpload _ key _ parts =>
      if key = k then some (parts.map (·.partNumber)) else none
    | _ => none

/-- Key of the last `complete_multipart_upload` call in a trace. -/
def lastFinalizeKey (tr : List S3Call) : Option (Option PyStr) :=
  (tr.filterMap fun c =>
    match c with
    | .completeMultipartUpload _ key _ _ => some key
    | _ => none).getLast?

/-- Keys of the `create_multipart_upload` calls in a trace, in order: every
remote object key the engine ever assigns appears here. -/
def createKeys (tr : List S3Call) : List (Option PyStr) :=
  tr.filterMap fun c =>
    match c with
    | .createMultipartUpload _ key => some key
    | _ => none

/-- The exact list of S3 calls the drive loop issues under the all-success
service, as a function of the loop state (remaining chunk count, read
position, part index, upload id, object key, accumulated part records,
rollover count, clock sample count): one upload per chunk, and at each
ceiling crossing a finalize of the current object followed by the creation
of the successor object under a fresh key. -/
def okTrace (clock : Nat → Timestamp) (sha : Bytes → PyStr) (file : Bytes)
    (bucket nm : PyStr) (c : Int) :
    Nat → Int → Nat → Option Nat → Option PyStr → List PartRecord → Nat → Nat → List S3Call
  | 0, _, _, _, _, _, _, _ => []
  | ch + 1, pos, i, uid, key, parts, rfc, clk =>
    S3Call.uploadPart bucket key (readAt file pos c) i uid (sha (readAt file pos c)) ::
    if i + 1 ≥ 10000 then
      S3Call.completeMultipartUpload bucket key uid (parts ++ [⟨i, [], []⟩]) ::
      S3Call.createMultipartUpload bucket (some (namedKey nm (clock clk) (rfc + 1))) ::
      okTrace clock sha file bucket nm c ch (pos + c) 1 (some 1)
        (some (namedKey nm (clock clk) (rfc + 1))) [] (rfc + 1) (clk + 1)
    else
      okTrace clock sha file bucket nm c ch (pos + c) (i + 1) uid key
        (parts ++ [⟨i, [], []⟩]) rfc clk

instance {ε α : Type} [DecidableEq ε] [DecidableEq α] : DecidableEq (Except ε α) := fun a b =>
  match a, b with
  | .ok x, .ok y => if h : x = y then .isTrue (by rw [h]) else .isFalse (by simp [h])
  | .ok _, .error _ => .isFalse (by simp)
  | .error _, .ok _ => .isFalse (by simp)
  | .error x, .error y => if h : x = y then .isTrue (by rw [h]) else .isFalse (by simp [h])

/-- Concrete clock stream used by the concrete runs below. -/
def cxClock : Nat → Timestamp :=
  fun n => { year := 2024, month := 1, day := 1, hour := 0, minute := 0, second := n }

/-- Concrete all-success environment (digests irrelevant to the claims). -/
def cxEnv : Env := okEnv cxClock (fun _ => [])

def cxBucket : PyStr := "b".toList

def cxPath : PyStr := "a/app.log".toList

/-- First session of the concrete two-session run: handler with chunk size 2
uploading a 3-byte file. -/
def sessW1 : World := (initiate_upload cxEnv (freshWorld cxBucket [7, 7, 7] 2) cxPath).2

def sessW2 : World := (drive cxEnv sessW1).2

def sessW3 : World := (complete_upload cxEnv sessW2).2

/-- Second session, initiated after the first completed, over the same file. -/
def sessW4 : World := (initiate_upload cxEnv sessW3 cxPath).2

def sessW5 : World := (drive cxEnv sessW4).2

def sessW6 : World := (complete_upload cxEnv sessW5).2

/-- Environment whose `upload_part` calls fail with a generic service error. -/
def cxFailEnv : Env := failEnvOf (.exc "u".toList) cxClock (fun _ => [])

def cxFailW1 : World := (initiate_upload cxFailEnv (freshWorld cxBucket [7, 7] 2) cxPath).2

def cxFailW2 : World := (drive cxFailEnv cxFailW1).2

/-- Environment whose `upload_part` calls fail with `NoCredentialsError`. -/
def cxNoCredEnv : Env := failEnvOf .noCredentials cxClock (fun _ => [])

def cxNoCredW1 : World := (initiate_upload cxNoCredEnv (freshWorld cxBucket [7, 7] 2) cxPath).2

/-- Environment whose `upload_part` calls fail and whose
`abort_multipart_upload` calls also fail. -/
def cxAbortEnv : Env := failAbortEnvOf (.exc "u".toList) (.exc "a".toList) cxClock (fun _ => [])

def cxAbortW1 : World := (initiate_upload cxAbortEnv (freshWorld cxBucket [7, 7] 2) cxPath).2

/-- Remote object key of the second session (read off before completion
clears it). -/
def sessKey2 : Option PyStr := sessW5.h.obj_key

/-- Run hitting the part-count ceiling: chunk size 1, 9999-byte file. -/
def c2W1 : World :=
  (initiate_upload cxEnv (freshWorld cxBucket (List.replicate 9999 0) 1) cxPath).2

def c2res : LoopOut × World := drive cxEnv c2W1

/-- C1 counterexample: with chunk size 2 and a 2-byte file (so `S mod C = 0`),
a full run does not stop at the single full-size part the claim predicts:
`complete_upload` still uploads one additional zero-size part, so the upload
bodies have sizes `[2, 0]` rather than `[2]`. -/
theorem C1_counterexample :
    (runIDC cxEnv 0 cxBucket cxPath [7, 7] 2).1 = .ok ∧
    uploadBodyLens (runIDC cxEnv 0 cxBucket cxPath [7, 7] 2).2.trace = [2, 0] := by
  decide

/-- C3 counterexample: with configured chunk size 2 and a 3-byte file, after a
successful `complete_upload` the configured `size` is 1 (the remainder), not
the original 2: the shrink is persistent, not transient. -/
theorem C3_counterexample :
    (runIDC cxEnv 0 cxBucket cxPath [7, 7, 7] 2).1 = .ok ∧
    (runIDC cxEnv 0 cxBucket cxPath [7, 7, 7] 2).2.h.multipart_upload_config.size = 1 := by
  decide

/-- C4 counterexample: after a part-upload failure during the drive call,
`upload_in_progress` is still `true` and the next `initiate_upload` fails
with the already-in-progress error instead of succeeding. -/
theorem C4_counterexample :
    (initiate_upload cxFailEnv (freshWorld cxBucket [7, 7] 2) cxPath).1 = .ok () ∧
    (drive cxFailEnv cxFailW1).1 = .failed (.partExc 1 (.exc "u".toList)) ∧
    cxFailW2.h.upload_in_progress = true ∧
    (initiate_upload cxFailEnv cxFailW2 cxPath).1 = .error (.exc msgAlreadyInProgress) := by
  decide

/-- C5 counterexample: when `upload_part` raises `NoCredentialsError`, the
engine still issues abort calls (two of them) and what propagates is the
generic wrapped part error, not the bare credential error. -/
theorem C5_counterexample :
    (drive cxNoCredEnv cxNoCredW1).1 = .failed (.partExc 1 .noCredentials) ∧
    (drive cxNoCredEnv cxNoCredW1).1 ≠ .failed .noCredentials ∧
    (abortCalls (drive cxNoCredEnv cxNoCredW1).2.trace).length = 2 := by
  decide

/-- C6 counterexample: when the abort call issued after a failed part upload
itself fails, the abort failure propagates to the caller in place of the
part-upload error. -/
theorem C6_counterexample :
    (drive cxAbortEnv cxAbortW1).1 = .failed (.exc "a".toList) ∧
    (drive cxAbortEnv cxAbortW1).1 ≠ .failed (.partExc 1 (.exc "u".toList)) := by
  decide

/-- C7 counterexample: a second `initiate_upload`, after a completed first
session (chunk size 2, 3-byte file), succeeds but leaves `pos = 2`,
`index = 3` and the two stale part records in place instead of resetting them
to 0, 1 and the empty list. -/
theorem C7_counterexample :
    (initiate_upload cxEnv sessW3 cxPath).1 = .ok () ∧
    sessW4.h.multipart_upload_config.pos = 2 ∧
    sessW4.h.multipart_upload_config.index = 3 ∧
    sessW4.h.uploaded_parts.map (·.partNumber) = [1, 2] := by
  decide

/-! Facts about the decimal renderings and the naming scheme. -/

theorem digitChar10_lt_inj {a b : Nat} (ha : a < 10) (hb : b < 10)
    (h : digitChar10 a = digitChar10 b) : a = b := by
  interval_cases a <;> interval_cases b <;> revert h <;> decide

theorem digitChar10_ne_slash (n : Nat) : digitChar10 n ≠ '/' := by
  unfold digitChar10
  have h : n % 10 < 10 := Nat.mod_lt _ (by norm_num)
  revert h
  generalize n % 10 = k
  intro h
  interval_cases k <;> decide

theorem map_digitChar10_inj : ∀ {l1 l2 : List Nat}, (∀ x ∈ l1, x < 10) →
    (∀ x ∈ l2, x < 10) → l1.map digitChar10 = l2.map digitChar10 → l1 = l2 := by
  intro l1
  induction l1 with
  | nil => intro l2 _ _ h; cases l2 <;> simp_all
  | cons a t ih =>
    intro l2 h1 h2 h
    cases l2 with
    | nil => simp_all
    | cons b t2 =>
      simp only [List.map_cons, List.cons.injEq] at h
      have ha := h1 a (by simp)
      have hb := h2 b (by simp)
      have hab := digitChar10_lt_inj ha hb h.1
      subst hab
      have := ih (fun x hx => h1 x (by simp [hx])) (fun x hx => h2 x (by simp [hx])) h.2
      simp [this]

theorem digitsRevFuel_eq : ∀ (fuel n : Nat), n ≤ fuel → digitsRevFuel fuel n = Nat.digits 10 n := by
  intro fuel
  induction fuel with
  | zero => intro n hn; interval_cases n; simp [digitsRevFuel]
  | succ f ih =>
    intro n hn
    match n with
    | 0 => simp [digitsRevFuel]
    | m + 1 =>
      have hdiv : (m + 1) / 10 ≤ f := by
        have := Nat.div_lt_self (Nat.succ_pos m) (by norm_num : 1 < 10)
        omega
      rw [digitsRevFuel, ih _ hdiv, Nat.digits_def' (by norm_num : 1 < 10) (Nat.succ_pos m)]

theorem pyNat_pos_eq {n : Nat} (hn : n ≠ 0) :
    pyNat n = (Nat.digits 10 n).reverse.map digitChar10 := by
  rw [pyNat, if_neg hn, digitsRevFuel_eq n n le_rfl]

theorem pyNat_eq_zero_str {n : Nat} (h : pyNat n = ['0']) : n = 0 := by
  by_contra hn
  rw [pyNat_pos_eq hn] at h
  have hlen : (Nat.digits 10 n).length = 1 := by
    have := congrArg List.length h
    simpa using this
  obtain ⟨d, hd⟩ := List.length_eq_one.mp hlen
  rw [hd] at h
  simp only [List.reverse_cons, List.reverse_nil, List.nil_append, List.map_cons,
    List.map_nil, List.cons.injEq, and_true] at h
  have hd10 : d < 10 := Nat.digits_lt_base (by norm_num) (by rw [hd]; simp)
  have h0 : d = 0 := digitChar10_lt_inj hd10 (by norm_num) (by rw [h]; decide)
  have := Nat.ofDigits_digits 10 n
  rw [hd, h0] at this
  simp [Nat.ofDigits_singleton] at this
  exact hn this.symm

theorem pyNat_injective : Function.Injective pyNat := by
  intro a b h
  by_cases ha : a = 0 <;> by_cases hb : b = 0
  · omega
  · rw [ha] at h
    have hb0 : pyNat b = ['0'] := by rw [← h]; rfl
    exact absurd (pyNat_eq_zero_str hb0) hb
  · rw [hb] at h
    have ha0 : pyNat a = ['0'] := by rw [h]; rfl
    exact absurd (pyNat_eq_zero_str ha0) ha
  · rw [pyNat_pos_eq ha, pyNat_pos_eq hb] at h
    have hda : ∀ x ∈ (Nat.digits 10 a).reverse, x < 10 := by
      intro x hx
      exact Nat.digits_lt_base (by norm_num) (List.mem_reverse.mp hx)
    have hdb : ∀ x ∈ (Nat.digits 10 b).reverse, x < 10 := by
      intro x hx
      exact Nat.digits_lt_base (by norm_num) (List.mem_reverse.mp hx)
    have := map_digitChar10_inj hda hdb h
    rw [List.reverse_inj] at this
    exact Nat.digits_inj_iff.mp this

theorem pyNat_length_pos (n : Nat) : 0 < (pyNat n).length := by
  by_cases hn : n = 0
  · rw [hn]; decide
  · rw [pyNat_pos_eq hn]
    simp [List.length_pos, Nat.digits_ne_nil_iff_ne_zero, hn]

theorem pyNat_no_slash (n : Nat) : '/' ∉ pyNat n := by
  intro hmem
  by_cases hn : n = 0
  · rw [hn] at hmem
    exact absurd hmem (by decide)
  · rw [pyNat_pos_eq hn] at hmem
    simp only [List.mem_map, List.mem_reverse] at hmem
    obtain ⟨d, _, hd⟩ := hmem
    exact digitChar10_ne_slash d hd

theorem not_mem_cons_of {α : Type} {a c : α} {l : List α} (h1 : a ≠ c) (h2 : a ∉ l) :
    a ∉ c :: l := by
  simp [h1, h2]

theorem no_slash_append {u v : PyStr} (hu : '/' ∉ u) (hv : '/' ∉ v) : '/' ∉ u ++ v := by
  simp [List.mem_append, hu, hv]

theorem pad2_no_slash (n : Nat) : '/' ∉ pad2 n := by
  intro h
  simp only [pad2, List.mem_cons, List.not_mem_nil, or_false] at h
  rcases h with h | h
  · exact digitChar10_ne_slash _ h.symm
  · exact digitChar10_ne_slash _ h.symm

theorem pad4_no_slash (n : Nat) : '/' ∉ pad4 n := by
  intro h
  simp only [pad4, List.mem_cons, List.not_mem_nil, or_false] at h
  rcases h with h | h | h | h
  · exact digitChar10_ne_slash _ h.symm
  · exact digitChar10_ne_slash _ h.symm
  · exact digitChar10_ne_slash _ h.symm
  · exact digitChar10_ne_slash _ h.symm

theorem strftime17_no_slash (t : Timestamp) : '/' ∉ strftime17 t := by
  intro h
  simp only [strftime17, List.mem_append, List.mem_cons] at h
  have hy := pad4_no_slash t.year
  have hm := pad2_no_slash t.month
  have hd := pad2_no_slash t.day
  have hh := pad2_no_slash t.hour
  have hmi := pad2_no_slash t.minute
  have hs := pad2_no_slash t.second
  have hdash : ('/' : Char) ≠ '-' := by decide
  tauto

theorem strftime17_length (t : Timestamp) : (strftime17 t).length = 17 := by
  simp [strftime17, pad4, pad2]

theorem uploadTimeOf_no_slash (ts : Timestamp) (c : Nat) : '/' ∉ uploadTimeOf ts c := by
  unfold uploadTimeOf
  by_cases hc : c ≠ 0
  · rw [if_pos hc]
    exact no_slash_append (strftime17_no_slash ts) (not_mem_cons_of (by decide) (pyNat_no_slash c))
  · rw [if_neg hc]
    simpa using strftime17_no_slash ts

theorem pathName_no_slash (p : PyStr) : '/' ∉ pathName p := by
  intro h
  unfold pathName at h
  rw [List.mem_reverse] at h
  have := List.mem_takeWhile_imp h
  simp at this

theorem takeWhile_eq_self_of_append {α : Type} {p : α → Bool} :
    ∀ (l : List α) (c : α) (r : List α), (∀ x ∈ l, p x = true) → p c = false →
      (l ++ c :: r).takeWhile p = l := by
  intro l
  induction l with
  | nil => intro c r _ hc; simp [List.takeWhile_cons, hc]
  | cons a t ih =>
    intro c r hl hc
    have ha : p a = true := hl a (by simp)
    simp [List.takeWhile_cons, ha, ih c r (fun x hx => hl x (by simp [hx])) hc]

theorem eq_of_append_slash {A B u v : PyStr} (hu : '/' ∉ u) (hv : '/' ∉ v)
    (h : A ++ '/' :: u = B ++ '/' :: v) : u = v := by
  have h2 := congrArg List.reverse h
  simp only [List.reverse_append, List.reverse_cons, List.append_assoc,
    List.singleton_append] at h2
  have hpu : ∀ x ∈ u.reverse, (x != '/') = true := by
    intro x hx
    rw [List.mem_reverse] at hx
    simp only [bne_iff_ne, ne_eq]
    intro hx2
    rw [hx2] at hx
    exact hu hx
  have hpv : ∀ x ∈ v.reverse, (x != '/') = true := by
    intro x hx
    rw [List.mem_reverse] at hx
    simp only [bne_iff_ne, ne_eq]
    intro hx2
    rw [hx2] at hx
    exact hv hx
  have h3 := congrArg (List.takeWhile (· != '/')) h2
  rw [takeWhile_eq_self_of_append _ _ _ hpu (by decide),
    takeWhile_eq_self_of_append _ _ _ hpv (by decide)] at h3
  exact List.reverse_inj.mp h3

theorem keyOf_count_inj (folder name : PyStr) (ts : Timestamp) {c1 c2 : Nat}
    (hne : c1 ≠ c2) : keyOf folder name ts c1 ≠ keyOf folder name ts c2 := by
  intro h
  have hsuf : uploadTimeOf ts c1 = uploadTimeOf ts c2 := by
    unfold keyOf at h
    cases hf : strFind '.' name with
    | some i =>
      rw [hf] at h
      have h1 := List.append_cancel_left h
      simp only [List.cons.injEq, true_and] at h1
      rw [List.append_assoc, List.append_assoc] at h1
      have h2 := List.append_cancel_left h1
      exact List.append_cancel_right h2
    | none =>
      rw [hf] at h
      have h1 := List.append_cancel_left h
      simp only [List.cons.injEq, true_and] at h1
      exact List.append_cancel_right h1
  unfold uploadTimeOf at hsuf
  have hsuf2 := List.append_cancel_left hsuf
  by_cases h1 : c1 = 0 <;> by_cases h2 : c2 = 0
  · exact hne (h1.trans h2.symm)
  · simp [h1, h2] at hsuf2
  · simp [h1, h2] at hsuf2
  · rw [if_pos h1, if_pos h2] at hsuf2
    simp only [List.cons.injEq, true_and] at hsuf2
    exact hne (pyNat_injective hsuf2)

theorem namedKey_zero_ne_pos (nm : PyStr) (ts0 ts1 : Timestamp) (c : Nat) (hc : c ≠ 0)
    (hnm : '/' ∉ nm) : namedKey nm ts0 0 ≠ namedKey nm ts1 c := by
  intro h
  unfold namedKey keyOf at h
  cases hf : strFind '.' nm with
  | some i =>
    rw [hf] at h
    have hdrop : '/' ∉ nm.drop i := fun hx => hnm (List.drop_subset i nm hx)
    have hlog : '/' ∉ "log_".toList := by decide
    have hu : '/' ∉ "log_".toList ++ uploadTimeOf ts0 0 ++ nm.drop i :=
      no_slash_append (no_slash_append hlog (uploadTimeOf_no_slash ts0 0)) hdrop
    have hv : '/' ∉ "log_".toList ++ uploadTimeOf ts1 c ++ nm.drop i :=
      no_slash_append (no_slash_append hlog (uploadTimeOf_no_slash ts1 c)) hdrop
    have heq := eq_of_append_slash hu hv h
    rw [List.append_assoc, List.append_assoc] at heq
    have h2 := List.append_cancel_left heq
    have h3 := List.append_cancel_right h2
    unfold uploadTimeOf at h3
    rw [if_neg (by simp), if_pos hc] at h3
    have hl := congrArg List.length h3
    rw [List.length_append, List.length_append, strftime17_length, strftime17_length] at hl
    simp only [List.length_nil, List.length_cons] at hl
    have hp := pyNat_length_pos c
    omega
  | none =>
    rw [hf] at h
    have hu : '/' ∉ uploadTimeOf ts0 0 ++ '_' :: nm :=
      no_slash_append (uploadTimeOf_no_slash ts0 0) (not_mem_cons_of (by decide) hnm)
    have hv : '/' ∉ uploadTimeOf ts1 c ++ '_' :: nm :=
      no_slash_append (uploadTimeOf_no_slash ts1 c) (not_mem_cons_of (by decide) hnm)
    have heq := eq_of_append_slash hu hv h
    have h3 := List.append_cancel_right heq
    unfold uploadTimeOf at h3
    rw [if_neg (by simp), if_pos hc] at h3
    have hl := congrArg List.length h3
    rw [List.length_append, List.length_append, strftime17_length, strftime17_length] at hl
    simp only [List.length_nil, List.length_cons] at hl
    have hp := pyNat_length_pos c
    omega

theorem uploadTimeOf_count_inj {ts1 ts2 : Timestamp} {c1 c2 : Nat}
    (h : uploadTimeOf ts1 c1 = uploadTimeOf ts2 c2) : c1 = c2 := by
  unfold uploadTimeOf at h
  by_cases h1 : c1 = 0 <;> by_cases h2 : c2 = 0
  · exact h1.trans h2.symm
  · exfalso
    rw [if_neg (by simp [h1]), if_pos (by simp [h2])] at h
    have hl := congrArg List.length h
    rw [List.length_append, List.length_append, strftime17_length, strftime17_length] at hl
    simp only [List.length_nil, List.length_cons] at hl
    have hp := pyNat_length_pos c2
    omega
  · exfalso
    rw [if_pos (by simp [h1]), if_neg (by simp [h2])] at h
    have hl := congrArg List.length h
    rw [List.length_append, List.length_append, strftime17_length, strftime17_length] at hl
    simp only [List.length_nil, List.length_cons] at hl
    have hp := pyNat_length_pos c1
    omega
  · rw [if_pos (by simp [h1]), if_pos (by simp [h2])] at h
    obtain ⟨h17, htl⟩ := List.append_inj h (by rw [strftime17_length, strftime17_length])
    simp only [List.cons.injEq, true_and] at htl
    exact pyNat_injective htl

/-- Keys generated for distinct rollover counts of the same slash-free base
name are distinct, whatever the two timestamps are. -/
theorem namedKey_count_inj (nm : PyStr) (ts1 ts2 : Timestamp) {c1 c2 : Nat} (hne : c1 ≠ c2)
    (hnm : '/' ∉ nm) : namedKey nm ts1 c1 ≠ namedKey nm ts2 c2 := by
  intro h
  unfold namedKey keyOf at h
  cases hf : strFind '.' nm with
  | some i =>
    rw [hf] at h
    have hdrop : '/' ∉ nm.drop i := fun hx => hnm (List.drop_subset i nm hx)
    have hlog : '/' ∉ "log_".toList := by decide
    have hu : '/' ∉ "log_".toList ++ uploadTimeOf ts1 c1 ++ nm.drop i :=
      no_slash_append (no_slash_append hlog (uploadTimeOf_no_slash ts1 c1)) hdrop
    have hv : '/' ∉ "log_".toList ++ uploadTimeOf ts2 c2 ++ nm.drop i :=
      no_slash_append (no_slash_append hlog (uploadTimeOf_no_slash ts2 c2)) hdrop
    have heq := eq_of_append_slash hu hv h
    rw [List.append_assoc, List.append_assoc] at heq
    have h2 := List.append_cancel_left heq
    have h3 := List.append_cancel_right h2
    exact hne (uploadTimeOf_count_inj h3)
  | none =>
    rw [hf] at h
    have hu : '/' ∉ uploadTimeOf ts1 c1 ++ '_' :: nm :=
      no_slash_append (uploadTimeOf_no_slash ts1 c1) (not_mem_cons_of (by decide) hnm)
    have hv : '/' ∉ uploadTimeOf ts2 c2 ++ '_' :: nm :=
      no_slash_append (uploadTimeOf_no_slash ts2 c2) (not_mem_cons_of (by decide) hnm)
    have heq := eq_of_append_slash hu hv h
    have h3 := List.append_cancel_right heq
    exact hne (uploadTimeOf_count_inj h3)

/-! Behaviour of the engine's operations, mostly under the all-success
service oracle. -/

theorem remote_log_naming_ok (h : HandlerState) (ts : Timestamp) (nm f : PyStr)
    (h1 : h.log_name = some nm) (h2 : h.remote_folder_path = some f) :
    remote_log_naming h ts = .ok (keyOf f nm ts h.remote_file_count) := by
  simp only [remote_log_naming, h1, h2, optStr, keyOf, uploadTimeOf]
  by_cases h0 : h.remote_file_count = 0
  · simp only [h0, ne_eq, not_true_eq_false, if_false]
    cases hf : strFind '.' nm <;> simp [hf]
  · simp only [ne_eq, h0, not_false_eq_true, if_true]
    cases hf : strFind '.' nm <;> simp [hf]

theorem upload_part_ok (clock : Nat → Timestamp) (sha : Bytes → PyStr) (w : World) (lp : PyStr)
    (hlp : w.h.log_path = some lp) :
    upload_part (okEnv clock sha) w =
      (.ok { partNumber := w.h.multipart_upload_config.index, eTag := [], checksumSHA256 := [] },
        { w with trace := w.trace ++ [S3Call.uploadPart w.h.bucket w.h.obj_key
            (readAt w.file w.h.multipart_upload_config.pos w.h.multipart_upload_config.size)
            w.h.multipart_upload_config.index w.h.upload_id
            (sha (readAt w.file w.h.multipart_upload_config.pos w.h.multipart_upload_config.size))] }) := by
  simp [upload_part, hlp, okEnv, okSvc]

theorem driveLoop_stop (env : Env) (fS : Int) (fuel : Nat) (w : World)
    (h : ¬ (fS - w.h.multipart_upload_config.pos ≥ w.h.multipart_upload_config.size)) :
    driveLoop env fS (fuel + 1) w = (.done, w) := by
  simp only [driveLoop]
  rw [if_neg h]

theorem driveLoop_iter_noroll (clock : Nat → Timestamp) (sha : Bytes → PyStr) (fS : Int)
    (fuel : Nat) (w : World) (lp : PyStr) (hlp : w.h.log_path = some lp)
    (hcond : fS - w.h.multipart_upload_config.pos ≥ w.h.multipart_upload_config.size)
    (hidx : ¬ (w.h.multipart_upload_config.index + 1 ≥ 10000)) :
    driveLoop (okEnv clock sha) fS (fuel + 1) w =
      driveLoop (okEnv clock sha) fS fuel (okStepWorld (okEnv clock sha) w) := by
  simp only [driveLoop]
  rw [if_pos hcond, upload_part_ok clock sha w lp hlp]
  simp [okStepWorld, okEnv, hidx]

theorem driveLoop_iter_roll (clock : Nat → Timestamp) (sha : Bytes → PyStr) (fS : Int)
    (fuel : Nat) (w : World) (lp nm : PyStr) (hlp : w.h.log_path = some lp)
    (hnm : w.h.log_name = some nm)
    (hcond : fS - w.h.multipart_upload_config.pos ≥ w.h.multipart_upload_config.size)
    (hidx : w.h.multipart_upload_config.index + 1 ≥ 10000) :
    driveLoop (okEnv clock sha) fS (fuel + 1) w =
      driveLoop (okEnv clock sha) fS fuel
        (okRollWorld (okEnv clock sha) nm (okStepWorld (okEnv clock sha) w)) := by
  simp only [driveLoop]
  rw [if_pos hcond, upload_part_ok clock sha w lp hlp]
  simp only [okEnv, okSvc]
  rw [if_pos (by simpa using hidx)]
  rw [remote_log_naming_ok _ _ nm _ (by simpa using hnm) rfl]
  simp [okStepWorld, okRollWorld, okEnv]

theorem uploadBodyLens_append (t1 t2 : List S3Call) :
    uploadBodyLens (t1 ++ t2) = uploadBodyLens t1 ++ uploadBodyLens t2 := by
  simp [uploadBodyLens]

theorem finalizePartNums_append (t1 t2 : List S3Call) :
    finalizePartNums (t1 ++ t2) = finalizePartNums t1 ++ finalizePartNums t2 := by
  simp [finalizePartNums]

theorem abortCalls_append (t1 t2 : List S3Call) :
    abortCalls (t1 ++ t2) = abortCalls t1 ++ abortCalls t2 := by
  simp [abortCalls]

theorem createCount_append (t1 t2 : List S3Call) :
    createCount (t1 ++ t2) = createCount t1 + createCount t2 := by
  simp [createCount]

theorem uploadBodyLens_cons_upload (b : PyStr) (k : Option PyStr) (body : Bytes) (n : Nat)
    (u : Option Nat) (cks : PyStr) (tr : List S3Call) :
    uploadBodyLens (S3Call.uploadPart b k body n u cks :: tr) =
      body.length :: uploadBodyLens tr := by
  simp [uploadBodyLens]

theorem uploadBodyLens_cons_complete (b : PyStr) (k : Option PyStr) (u : Option Nat)
    (ps : List PartRecord) (tr : List S3Call) :
    uploadBodyLens (S3Call.completeMultipartUpload b k u ps :: tr) = uploadBodyLens tr := by
  simp [uploadBodyLens]

theorem uploadBodyLens_cons_create (b : PyStr) (k : Option PyStr) (tr : List S3Call) :
    uploadBodyLens (S3Call.createMultipartUpload b k :: tr) = uploadBodyLens tr := by
  simp [uploadBodyLens]

theorem uploadBodyLens_cons_head (b : PyStr) (k : Option PyStr) (tr : List S3Call) :
    uploadBodyLens (S3Call.headObject b k :: tr) = uploadBodyLens tr := by
  simp [uploadBodyLens]

theorem finalizePartNums_cons_upload (b : PyStr) (k : Option PyStr) (body : Bytes) (n : Nat)
    (u : Option Nat) (cks : PyStr) (tr : List S3Call) :
    finalizePartNums (S3Call.uploadPart b k body n u cks :: tr) = finalizePartNums tr := by
  simp [finalizePartNums]

theorem finalizePartNums_cons_complete (b : PyStr) (k : Option PyStr) (u : Option Nat)
    (ps : List PartRecord) (tr : List S3Call) :
    finalizePartNums (S3Call.completeMultipartUpload b k u ps :: tr) =
      ps.map (·.partNumber) :: finalizePartNums tr := by
  simp [finalizePartNums]

theorem finalizePartNums_cons_create (b : PyStr) (k : Option PyStr) (tr : List S3Call) :
    finalizePartNums (S3Call.createMultipartUpload b k :: tr) = finalizePartNums tr := by
  simp [finalizePartNums]

theorem finalizePartNums_cons_head (b : PyStr) (k : Option PyStr) (tr : List S3Call) :
    finalizePartNums (S3Call.headObject b k :: tr) = finalizePartNums tr := by
  simp [finalizePartNums]

theorem abortCalls_cons_upload (b : PyStr) (k : Option PyStr) (body : Bytes) (n : Nat)
    (u : Option Nat) (cks : PyStr) (tr : List S3Call) :
    abortCalls (S3Call.uploadPart b k body n u cks :: tr) = abortCalls tr := by
  simp [abortCalls]

theorem abortCalls_cons_complete (b : PyStr) (k : Option PyStr) (u : Option Nat)
    (ps : List PartRecord) (tr : List S3Call) :
    abortCalls (S3Call.completeMultipartUpload b k u ps :: tr) = abortCalls tr := by
  simp [abortCalls]

theorem abortCalls_cons_create (b : PyStr) (k : Option PyStr) (tr : List S3Call) :
    abortCalls (S3Call.createMultipartUpload b k :: tr) = abortCalls tr := by
  simp [abortCalls]

theorem abortCalls_cons_head (b : PyStr) (k : Option PyStr) (tr : List S3Call) :
    abortCalls (S3Call.headObject b k :: tr) = abortCalls tr := by
  simp [abortCalls]

theorem abortCalls_cons_abort (b : PyStr) (k : Option PyStr) (u : Option Nat)
    (tr : List S3Call) :
    abortCalls (S3Call.abortMultipartUpload b k u :: tr) =
      S3Call.abortMultipartUpload b k u :: abortCalls tr := by
  simp [abortCalls]

theorem createCount_cons_upload (b : PyStr) (k : Option PyStr) (body : Bytes) (n : Nat)
    (u : Option Nat) (cks : PyStr) (tr : List S3Call) :
    createCount (S3Call.uploadPart b k body n u cks :: tr) = createCount tr := by
  simp [createCount]

theorem createCount_cons_complete (b : PyStr) (k : Option PyStr) (u : Option Nat)
    (ps : List PartRecord) (tr : List S3Call) :
    createCount (S3Call.completeMultipartUpload b k u ps :: tr) = createCount tr := by
  simp [createCount]

theorem createCount_cons_create (b : PyStr) (k : Option PyStr) (tr : List S3Call) :
    createCount (S3Call.createMultipartUpload b k :: tr) = createCount tr + 1 := by
  simp [createCount]

theorem createCount_cons_head (b : PyStr) (k : Option PyStr) (tr : List S3Call) :
    createCount (S3Call.headObject b k :: tr) = createCount tr := by
  simp [createCount]

theorem uploadBodyLens_nil : uploadBodyLens [] = [] := rfl

theorem finalizePartNums_nil : finalizePartNums [] = [] := rfl

theorem abortCalls_nil : abortCalls [] = [] := rfl

theorem createCount_nil : createCount [] = 0 := rfl

theorem createKeys_nil : createKeys [] = [] := rfl

theorem createKeys_append (t1 t2 : List S3Call) :
    createKeys (t1 ++ t2) = createKeys t1 ++ createKeys t2 := by
  simp [createKeys]

theorem createKeys_cons_create (b : PyStr) (k : Option PyStr) (tr : List S3Call) :
    createKeys (S3Call.createMultipartUpload b k :: tr) = k :: createKeys tr := by
  simp [createKeys]

theorem createKeys_cons_upload (b : PyStr) (k : Option PyStr) (body : Bytes) (n : Nat)
    (u : Option Nat) (cks : PyStr) (tr : List S3Call) :
    createKeys (S3Call.uploadPart b k body n u cks :: tr) = createKeys tr := by
  simp [createKeys]

theorem createKeys_cons_complete (b : PyStr) (k : Option PyStr) (u : Option Nat)
    (ps : List PartRecord) (tr : List S3Call) :
    createKeys (S3Call.completeMultipartUpload b k u ps :: tr) = createKeys tr := by
  simp [createKeys]

theorem createKeys_cons_head (b : PyStr) (k : Option PyStr) (tr : List S3Call) :
    createKeys (S3Call.headObject b k :: tr) = createKeys tr := by
  simp [createKeys]

theorem uploadNumsToKey_nil (k : Option PyStr) : uploadNumsToKey [] k = [] := rfl

theorem uploadNumsToKey_append (t1 t2 : List S3Call) (k : Option PyStr) :
    uploadNumsToKey (t1 ++ t2) k = uploadNumsToKey t1 k ++ uploadNumsToKey t2 k := by
  simp [uploadNumsToKey]

theorem uploadNumsToKey_cons_upload_eq (b : PyStr) (body : Bytes) (n : Nat)
    (u : Option Nat) (cks : PyStr) (tr : List S3Call) (k : Option PyStr) :
    uploadNumsToKey (S3Call.uploadPart b k body n u cks :: tr) k =
      n :: uploadNumsToKey tr k := by
  simp [uploadNumsToKey]

theorem uploadNumsToKey_cons_upload_ne (b : PyStr) (k' : Option PyStr) (body : Bytes)
    (n : Nat) (u : Option Nat) (cks : PyStr) (tr : List S3Call) (k : Option PyStr)
    (h : k' ≠ k) :
    uploadNumsToKey (S3Call.uploadPart b k' body n u cks :: tr) k =
      uploadNumsToKey tr k := by
  simp [uploadNumsToKey, h]

theorem uploadNumsToKey_cons_complete (b : PyStr) (k' : Option PyStr) (u : Option Nat)
    (ps : List PartRecord) (tr : List S3Call) (k : Option PyStr) :
    uploadNumsToKey (S3Call.completeMultipartUpload b k' u ps :: tr) k =
      uploadNumsToKey tr k := by
  simp [uploadNumsToKey]

theorem uploadNumsToKey_cons_create (b : PyStr) (k' : Option PyStr) (tr : List S3Call)
    (k : Option PyStr) :
    uploadNumsToKey (S3Call.createMultipartUpload b k' :: tr) k = uploadNumsToKey tr k := by
  simp [uploadNumsToKey]

theorem uploadNumsToKey_cons_head (b : PyStr) (k' : Option PyStr) (tr : List S3Call)
    (k : Option PyStr) :
    uploadNumsToKey (S3Call.headObject b k' :: tr) k = uploadNumsToKey tr k := by
  simp [uploadNumsToKey]

theorem finalizesToKey_nil (k : Option PyStr) : finalizesToKey [] k = [] := rfl

theorem finalizesToKey_append (t1 t2 : List S3Call) (k : Option PyStr) :
    finalizesToKey (t1 ++ t2) k = finalizesToKey t1 k ++ finalizesToKey t2 k := by
  simp [finalizesToKey]

theorem finalizesToKey_cons_complete_eq (b : PyStr) (u : Option Nat)
    (ps : List PartRecord) (tr : List S3Call) (k : Option PyStr) :
    finalizesToKey (S3Call.completeMultipartUpload b k u ps :: tr) k =
      ps.map (·.partNumber) :: finalizesToKey tr k := by
  simp [finalizesToKey]

theorem finalizesToKey_cons_complete_ne (b : PyStr) (k' : Option PyStr) (u : Option Nat)
    (ps : List PartRecord) (tr : List S3Call) (k : Option PyStr) (h : k' ≠ k) :
    finalizesToKey (S3Call.completeMultipartUpload b k' u ps :: tr) k =
      finalizesToKey tr k := by
  simp [finalizesToKey, h]

theorem finalizesToKey_cons_upload (b : PyStr) (k' : Option PyStr) (body : Bytes) (n : Nat)
    (u : Option Nat) (cks : PyStr) (tr : List S3Call) (k : Option PyStr) :
    finalizesToKey (S3Call.uploadPart b k' body n u cks :: tr) k = finalizesToKey tr k := by
  simp [finalizesToKey]

theorem finalizesToKey_cons_create (b : PyStr) (k' : Option PyStr) (tr : List S3Call)
    (k : Option PyStr) :
    finalizesToKey (S3Call.createMultipartUpload b k' :: tr) k = finalizesToKey tr k := by
  simp [finalizesToKey]

theorem finalizesToKey_cons_head (b : PyStr) (k' : Option PyStr) (tr : List S3Call)
    (k : Option PyStr) :
    finalizesToKey (S3Call.headObject b k' :: tr) k = finalizesToKey tr k := by
  simp [finalizesToKey]

/-- The keys the drive loop assigns at its rollovers: one per ceiling
crossing, with consecutive timestamps and consecutive rollover counts. -/
theorem okTrace_createKeys (clock : Nat → Timestamp) (sha : Bytes → PyStr) (file : Bytes)
    (bucket nm : PyStr) (c : Int) :
    ∀ (ch : Nat) (pos : Int) (i : Nat) (uid : Option Nat) (key : Option PyStr)
      (parts : List PartRecord) (rfc clk : Nat), 1 ≤ i → i ≤ 9999 →
      createKeys (okTrace clock sha file bucket nm c ch pos i uid key parts rfc clk) =
        (List.range ((i - 1 + ch) / 9999)).map
          (fun j => some (namedKey nm (clock (clk + j)) (rfc + 1 + j))) := by
  intro ch
  induction ch with
  | zero =>
    intro pos i uid key parts rfc clk hi1 hi2
    rw [show (i - 1 + 0) / 9999 = 0 from by omega]
    rfl
  | succ ch ih =>
    intro pos i uid key parts rfc clk hi1 hi2
    by_cases hroll : i + 1 ≥ 10000
    · have hieq : i = 9999 := by omega
      subst hieq
      simp only [okTrace]
      rw [if_pos hroll]
      rw [createKeys_cons_upload, createKeys_cons_complete, createKeys_cons_create]
      rw [ih (pos + c) 1 (some 1) (some (namedKey nm (clock clk) (rfc + 1))) [] (rfc + 1)
        (clk + 1) (by omega) (by omega)]
      rw [show (9999 - 1 + (ch + 1)) / 9999 = (1 - 1 + ch) / 9999 + 1 from by omega]
      rw [List.range_succ_eq_map]
      simp only [List.map_cons, List.map_map, Nat.add_zero]
      congr 1
      apply List.map_congr_left
      intro j hj
      simp only [Function.comp_apply, Nat.succ_eq_add_one]
      rw [show clk + (j + 1) = clk + 1 + j from by omega,
        show rfc + 1 + (j + 1) = rfc + 1 + 1 + j from by omega]
    · simp only [okTrace]
      rw [if_neg hroll]
      rw [createKeys_cons_upload]
      have hrec := ih (pos + c) (i + 1) uid key
        (parts ++ [({ partNumber := i, eTag := [], checksumSHA256 := [] } : PartRecord)])
        rfc clk (by omega) (by omega)
      rw [hrec]
      rw [show (i + 1 - 1 + ch) / 9999 = (i - 1 + (ch + 1)) / 9999 from by omega]

theorem readAt_length (file : Bytes) (p n : Nat) :
    (readAt file (p : Int) (n : Int)).length = min n (file.length - p) := by
  rw [readAt]
  rw [if_neg (by omega : ¬ ((n : Int) < 0))]
  simp

theorem range'_snoc (i : Nat) (hi : 1 ≤ i) :
    List.range' 1 (i - 1) ++ [i] = List.range' 1 i := by
  have h1 : [i] = List.range' (1 + (i - 1)) 1 := by
    rw [List.range'_one]
    congr 1
    omega
  rw [h1, List.range'_append_1]
  congr 1
  omega

/-- Where the drive loop's uploads and finalizes go, key by key: parts are
uploaded to the live object until the ceiling is reached, each rolled-over
object is finalized with parts 1..9999 exactly, the object live at the end
has received the remaining part numbers and no finalize, and keys other
than the live and rolled-over ones are never addressed. -/
theorem okTrace_key_facts (clock : Nat → Timestamp) (sha : Bytes → PyStr) (file : Bytes)
    (bucket nm : PyStr) (c : Int) (hnm : '/' ∉ nm) :
    ∀ (ch : Nat) (pos : Int) (i : Nat) (uid : Option Nat) (key : Option PyStr)
      (parts : List PartRecord) (rfc clk : Nat),
      1 ≤ i → i ≤ 9999 →
      parts.map (·.partNumber) = List.range' 1 (i - 1) →
      (∀ j, key ≠ some (namedKey nm (clock (clk + j)) (rfc + 1 + j))) →
      ((∀ k : Option PyStr, k ≠ key →
          (∀ j, j < (i - 1 + ch) / 9999 →
            k ≠ some (namedKey nm (clock (clk + j)) (rfc + 1 + j))) →
          uploadNumsToKey (okTrace clock sha file bucket nm c ch pos i uid key parts rfc clk)
              k = [] ∧
          finalizesToKey (okTrace clock sha file bucket nm c ch pos i uid key parts rfc clk)
              k = []) ∧
        ((i - 1 + ch) / 9999 ≠ 0 →
          uploadNumsToKey (okTrace clock sha file bucket nm c ch pos i uid key parts rfc clk)
              key = List.range' i (10000 - i) ∧
          finalizesToKey (okTrace clock sha file bucket nm c ch pos i uid key parts rfc clk)
              key = [List.range' 1 9999]) ∧
        (∀ j, j + 1 < (i - 1 + ch) / 9999 →
          uploadNumsToKey (okTrace clock sha file bucket nm c ch pos i uid key parts rfc clk)
              (some (namedKey nm (clock (clk + j)) (rfc + 1 + j))) = List.range' 1 9999 ∧
          finalizesToKey (okTrace clock sha file bucket nm c ch pos i uid key parts rfc clk)
              (some (namedKey nm (clock (clk + j)) (rfc + 1 + j))) = [List.range' 1 9999]) ∧
        ((i - 1 + ch) / 9999 = 0 →
          uploadNumsToKey (okTrace clock sha file bucket nm c ch pos i uid key parts rfc clk)
              key = List.range' i ch ∧
          finalizesToKey (okTrace clock sha file bucket nm c ch pos i uid key parts rfc clk)
              key = []) ∧
        ((i - 1 + ch) / 9999 ≠ 0 →
          uploadNumsToKey (okTrace clock sha file bucket nm c ch pos i uid key parts rfc clk)
              (some (namedKey nm (clock (clk + ((i - 1 + ch) / 9999 - 1)))
                (rfc + (i - 1 + ch) / 9999))) =
            List.range' 1 ((i - 1 + ch) % 9999) ∧
          finalizesToKey (okTrace clock sha file bucket nm c ch pos i uid key parts rfc clk)
              (some (namedKey nm (clock (clk + ((i - 1 + ch) / 9999 - 1)))
                (rfc + (i - 1 + ch) / 9999))) = [])) := by
  intro ch
  induction ch with
  | zero =>
    intro pos i uid key parts rfc clk hi1 hi2 hparts hfresh
    refine ⟨fun k hk hkf => ⟨rfl, rfl⟩, fun h => absurd (by omega) h,
      fun j hj => absurd hj (by omega), fun _ => ⟨rfl, rfl⟩, fun h => absurd (by omega) h⟩
  | succ CH ih =>
    intro pos i uid key parts rfc clk hi1 hi2 hparts hfresh
    by_cases hroll : i + 1 ≥ 10000
    · -- rollover step: the part uploaded was number 9999
      have hieq : i = 9999 := by omega
      subst hieq
      have hkey1 : ∀ j, (some (namedKey nm (clock clk) (rfc + 1)) : Option PyStr) ≠
          some (namedKey nm (clock (clk + 1 + j)) (rfc + 1 + 1 + j)) := by
        intro j h
        exact namedKey_count_inj nm (clock clk) (clock (clk + 1 + j)) (by omega) hnm
          (Option.some.inj h)
      obtain ⟨IHA, IHB0, IHBj, IHC0, IHCl⟩ :=
        ih (pos + c) 1 (some 1) (some (namedKey nm (clock clk) (rfc + 1))) [] (rfc + 1)
          (clk + 1) (by omega) (by omega) rfl hkey1
      rw [show (1 - 1 + CH) / 9999 = CH / 9999 from by omega] at IHA IHB0 IHBj IHC0 IHCl
      rw [show (1 - 1 + CH) % 9999 = CH % 9999 from by omega] at IHCl
      have hA1 : key ≠ some (namedKey nm (clock clk) (rfc + 1)) := by
        have h0 := hfresh 0
        simp only [Nat.add_zero] at h0
        exact h0
      have hkeyfut : ∀ j, j < CH / 9999 →
          key ≠ some (namedKey nm (clock (clk + 1 + j)) (rfc + 1 + 1 + j)) := by
        intro j hj
        have h1 := hfresh (j + 1)
        rw [show clk + (j + 1) = clk + 1 + j from by omega,
          show rfc + 1 + (j + 1) = rfc + 1 + 1 + j from by omega] at h1
        exact h1
      have hparts9999 : (parts ++ [({ partNumber := 9999, eTag := [], checksumSHA256 := [] } :
          PartRecord)]).map (·.partNumber) = List.range' 1 9999 := by
        rw [List.map_append, hparts]
        simp only [List.map_cons, List.map_nil]
        exact range'_snoc 9999 (by omega)
      simp only [okTrace]
      rw [if_pos hroll]
      rw [show (9999 - 1 + (CH + 1)) / 9999 = CH / 9999 + 1 from by omega,
        show (9999 - 1 + (CH + 1)) % 9999 = CH % 9999 from by omega]
      refine ⟨?_, ?_, ?_, ?_, ?_⟩
      · -- keys never addressed
        intro k hk hkf
        have hkK1 : k ≠ some (namedKey nm (clock clk) (rfc + 1)) := by
          have h0 := hkf 0 (by omega)
          simp only [Nat.add_zero] at h0
          exact h0
        have hkfut : ∀ j, j < CH / 9999 →
            k ≠ some (namedKey nm (clock (clk + 1 + j)) (rfc + 1 + 1 + j)) := by
          intro j hj
          have h1 := hkf (j + 1) (by omega)
          rw [show clk + (j + 1) = clk + 1 + j from by omega,
            show rfc + 1 + (j + 1) = rfc + 1 + 1 + j from by omega] at h1
          exact h1
        obtain ⟨hu, hf⟩ := IHA k hkK1 hkfut
        constructor
        · rw [uploadNumsToKey_cons_upload_ne _ _ _ _ _ _ _ _ (Ne.symm hk),
            uploadNumsToKey_cons_complete, uploadNumsToKey_cons_create, hu]
        · rw [finalizesToKey_cons_upload,
            finalizesToKey_cons_complete_ne _ _ _ _ _ _ (Ne.symm hk),
            finalizesToKey_cons_create, hf]
      · -- the incoming object: its part 9999 and its finalize with 1..9999
        intro h
        obtain ⟨hu, hf⟩ := IHA key hA1 hkeyfut
        constructor
        · rw [uploadNumsToKey_cons_upload_eq, uploadNumsToKey_cons_complete,
            uploadNumsToKey_cons_create, hu]
          rfl
        · rw [finalizesToKey_cons_upload, finalizesToKey_cons_complete_eq,
            finalizesToKey_cons_create, hf, hparts9999]
      · -- objects rolled over further on
        intro j hj
        cases j with
        | zero =>
          have hB := IHB0 (by omega)
          simp only [Nat.add_zero]
          have hne0 : key ≠ some (namedKey nm (clock clk) (rfc + 1)) := hA1
          constructor
          · rw [uploadNumsToKey_cons_upload_ne _ _ _ _ _ _ _ _ hne0,
              uploadNumsToKey_cons_complete, uploadNumsToKey_cons_create, hB.1]
          · rw [finalizesToKey_cons_upload,
              finalizesToKey_cons_complete_ne _ _ _ _ _ _ hne0,
              finalizesToKey_cons_create, hB.2]
        | succ j' =>
          have hB := IHBj j' (by omega)
          have hne1 : key ≠ some (namedKey nm (clock (clk + 1 + j')) (rfc + 1 + 1 + j')) := by
            have h1 := hfresh (j' + 1)
            rw [show clk + (j' + 1) = clk + 1 + j' from by omega,
              show rfc + 1 + (j' + 1) = rfc + 1 + 1 + j' from by omega] at h1
            exact h1
          rw [show clk + (j' + 1) = clk + 1 + j' from by omega,
            show rfc + 1 + (j' + 1) = rfc + 1 + 1 + j' from by omega]
          constructor
          · rw [uploadNumsToKey_cons_upload_ne _ _ _ _ _ _ _ _ hne1,
              uploadNumsToKey_cons_complete, uploadNumsToKey_cons_create, hB.1]
          · rw [finalizesToKey_cons_upload,
              finalizesToKey_cons_complete_ne _ _ _ _ _ _ hne1,
              finalizesToKey_cons_create, hB.2]
      · -- a rollover happened, so the no-rollover clause is vacuous
        intro h
        exact absurd h (by omega)
      · -- the object live at the end
        intro h
        rw [show CH / 9999 + 1 - 1 = CH / 9999 from by omega]
        by_cases hN : CH / 9999 = 0
        · -- the rollover in this step was the only one
          rw [hN]
          simp only [Nat.add_zero, Nat.zero_add]
          have hC := IHC0 hN
          have hCH : CH % 9999 = CH := by omega
          rw [hCH]
          constructor
          · rw [uploadNumsToKey_cons_upload_ne _ _ _ _ _ _ _ _ hA1,
              uploadNumsToKey_cons_complete, uploadNumsToKey_cons_create, hC.1]
          · rw [finalizesToKey_cons_upload,
              finalizesToKey_cons_complete_ne _ _ _ _ _ _ hA1,
              finalizesToKey_cons_create, hC.2]
        · -- the live object comes from a later rollover
          have hCl := IHCl hN
          have hneL : key ≠ some (namedKey nm (clock (clk + 1 + (CH / 9999 - 1)))
              (rfc + 1 + CH / 9999)) := by
            have h1 := hfresh (CH / 9999)
            rw [show clk + CH / 9999 = clk + 1 + (CH / 9999 - 1) from by omega] at h1
            exact h1
          rw [show clk + CH / 9999 = clk + 1 + (CH / 9999 - 1) from by omega,
            show rfc + (CH / 9999 + 1) = rfc + 1 + CH / 9999 from by omega]
          constructor
          · rw [uploadNumsToKey_cons_upload_ne _ _ _ _ _ _ _ _ hneL,
              uploadNumsToKey_cons_complete, uploadNumsToKey_cons_create, hCl.1]
          · rw [finalizesToKey_cons_upload,
              finalizesToKey_cons_complete_ne _ _ _ _ _ _ hneL,
              finalizesToKey_cons_create, hCl.2]
    · -- no rollover: the index moves up within the same object
      have hparts1 : (parts ++ [({ partNumber := i, eTag := [], checksumSHA256 := [] } :
          PartRecord)]).map (·.partNumber) = List.range' 1 (i + 1 - 1) := by
        rw [List.map_append, hparts]
        simp only [List.map_cons, List.map_nil]
        rw [Nat.add_sub_cancel]
        exact range'_snoc i hi1
      obtain ⟨IHA, IHB0, IHBj, IHC0, IHCl⟩ :=
        ih (pos + c) (i + 1) uid key
          (parts ++ [({ partNumber := i, eTag := [], checksumSHA256 := [] } : PartRecord)])
          rfc clk (by omega) (by omega) hparts1 hfresh
      rw [show (i + 1 - 1 + CH) / 9999 = (i - 1 + (CH + 1)) / 9999 from by omega]
        at IHA IHB0 IHBj IHC0 IHCl
      rw [show (i + 1 - 1 + CH) % 9999 = (i - 1 + (CH + 1)) % 9999 from by omega] at IHCl
      simp only [okTrace]
      rw [if_neg hroll]
      refine ⟨?_, ?_, ?_, ?_, ?_⟩
      · intro k hk hkf
        obtain ⟨hu, hf⟩ := IHA k hk hkf
        constructor
        · rw [uploadNumsToKey_cons_upload_ne _ _ _ _ _ _ _ _ (Ne.symm hk), hu]
        · rw [finalizesToKey_cons_upload, hf]
      · intro h
        obtain ⟨hu, hf⟩ := IHB0 h
        constructor
        · rw [uploadNumsToKey_cons_upload_eq, hu,
            show (10000 : Nat) - i = (10000 - (i + 1)) + 1 from by omega]
          rfl
        · rw [finalizesToKey_cons_upload, hf]
      · intro j hj
        obtain ⟨hu, hf⟩ := IHBj j hj
        constructor
        · rw [uploadNumsToKey_cons_upload_ne _ _ _ _ _ _ _ _ (hfresh j), hu]
        · rw [finalizesToKey_cons_upload, hf]
      · intro h
        obtain ⟨hu, hf⟩ := IHC0 h
        constructor
        · rw [uploadNumsToKey_cons_upload_eq, hu]
          rfl
        · rw [finalizesToKey_cons_upload, hf]
      · intro h
        obtain ⟨hu, hf⟩ := IHCl h
        have hneL : key ≠ some (namedKey nm (clock (clk + ((i - 1 + (CH + 1)) / 9999 - 1)))
            (rfc + (i - 1 + (CH + 1)) / 9999)) := by
          have h1 := hfresh ((i - 1 + (CH + 1)) / 9999 - 1)
          rw [show rfc + 1 + ((i - 1 + (CH + 1)) / 9999 - 1) = rfc + (i - 1 + (CH + 1)) / 9999
            from by omega] at h1
          exact h1
        constructor
        · rw [uploadNumsToKey_cons_upload_ne _ _ _ _ _ _ _ _ hneL, hu]
        · rw [finalizesToKey_cons_upload, hf]

/-- Full characterisation of a terminating drive loop under the all-success
service: the loop uploads one `c`-sized chunk per remaining full chunk,
rolling over each time the part index reaches the ceiling, and stops with
the remainder untouched. -/
theorem driveLoop_ok (clock : Nat → Timestamp) (sha : Bytes → PyStr) (c : Nat) (hc : 1 ≤ c) :
    ∀ (fuel : Nat) (w : World) (S p i : Nat) (lp nm : PyStr),
      w.file.length = S →
      w.h.multipart_upload_config.size = (c : Int) →
      w.h.multipart_upload_config.pos = (p : Int) →
      w.h.multipart_upload_config.index = i →
      w.h.log_path = some lp →
      w.h.log_name = some nm →
      w.h.uploaded_parts.map (·.partNumber) = List.range' 1 (i - 1) →
      1 ≤ i → i ≤ 9999 →
      (S - p) / c + 1 ≤ fuel →
      ∃ w' Δ,
        driveLoop (okEnv clock sha) (S : Int) fuel w = (.done, w') ∧
        w'.file = w.file ∧
        w'.h.bucket = w.h.bucket ∧
        w'.h.log_path = w.h.log_path ∧
        w'.h.log_name = w.h.log_name ∧
        w'.h.upload_in_progress = w.h.upload_in_progress ∧
        w'.h.multipart_upload_config.size = (c : Int) ∧
        w'.h.multipart_upload_config.pos = ((p + c * ((S - p) / c) : Nat) : Int) ∧
        w'.h.multipart_upload_config.index = (i - 1 + (S - p) / c) % 9999 + 1 ∧
        w'.h.uploaded_parts.map (·.partNumber) = List.range' 1 ((i - 1 + (S - p) / c) % 9999) ∧
        w'.h.remote_file_count = w.h.remote_file_count + (i - 1 + (S - p) / c) / 9999 ∧
        w'.clk = w.clk + (i - 1 + (S - p) / c) / 9999 ∧
        w'.h.upload_id = (if (i - 1 + (S - p) / c) / 9999 = 0 then w.h.upload_id else some 1) ∧
        w'.h.obj_key = (if (i - 1 + (S - p) / c) / 9999 = 0 then w.h.obj_key
          else some (namedKey nm (clock (w.clk + ((i - 1 + (S - p) / c) / 9999 - 1)))
            (w.h.remote_file_count + (i - 1 + (S - p) / c) / 9999))) ∧
        w'.trace = w.trace ++ Δ ∧
        Δ = okTrace clock sha w.file w.h.bucket nm (c : Int) ((S - p) / c) (p : Int) i
          w.h.upload_id w.h.obj_key w.h.uploaded_parts w.h.remote_file_count w.clk ∧
        uploadBodyLens Δ = List.replicate ((S - p) / c) c ∧
        finalizePartNums Δ = List.replicate ((i - 1 + (S - p) / c) / 9999) (List.range' 1 9999) ∧
        abortCalls Δ = [] ∧
        createCount Δ = (i - 1 + (S - p) / c) / 9999 := by
  intro fuel
  induction fuel with
  | zero =>
    intro w S p i lp nm _ _ _ _ _ _ _ _ _ hfuel
    exact absurd hfuel (Nat.not_succ_le_zero _)
  | succ fl ih =>
    intro w S p i lp nm hfile hsz hpos hidx hlp hnm hparts hi1 hi2 hfuel
    by_cases hcond : p + c ≤ S
    · -- the loop condition holds: one chunk is uploaded
      have hcLe : c ≤ S - p := by omega
      have hsub : S - p - c = S - (p + c) := by omega
      obtain ⟨K, hK1, hK2⟩ : ∃ K, (S - p) / c = K + 1 ∧ (S - (p + c)) / c = K :=
        ⟨(S - (p + c)) / c, by rw [Nat.div_eq_sub_div (by omega : 0 < c) hcLe, hsub], rfl⟩
      have hcond2 : (S : Int) - w.h.multipart_upload_config.pos ≥
          w.h.multipart_upload_config.size := by
        rw [hpos, hsz]
        omega
      have hbody : (readAt w.file w.h.multipart_upload_config.pos
          w.h.multipart_upload_config.size).length = c := by
        rw [hpos, hsz, readAt_length, hfile]
        omega
      by_cases hroll : i + 1 ≥ 10000
      · -- rollover iteration: the uploaded part was number 9999
        have hieq : i = 9999 := by omega
        subst hieq
        rw [driveLoop_iter_roll clock sha _ fl w lp nm hlp hnm hcond2 (by rw [hidx])]
        have hpp : w.h.uploaded_parts.map (·.partNumber) ++ [w.h.multipart_upload_config.index] =
            List.range' 1 9999 := by
          rw [hparts, hidx]
          exact range'_snoc 9999 (by omega)
        obtain ⟨w', Δ', hrun, hfile', hbucket', hlp', hnm', hip', hsz', hpos', hidx', hparts',
            hrfc', hclk', huid', hkey', htrace', htrEq', hlens', hfin', habort', hcreate'⟩ :=
          ih (okRollWorld (okEnv clock sha) nm (okStepWorld (okEnv clock sha) w)) S (p + c) 1 lp nm
            (by simp [okRollWorld, okStepWorld, hfile])
            (by simp [okRollWorld, okStepWorld, hsz])
            (by simp only [okRollWorld, okStepWorld]
                rw [hpos, hsz]
                push_cast
                ring)
            (by simp [okRollWorld, okStepWorld])
            (by simp [okRollWorld, okStepWorld, hlp])
            (by simp [okRollWorld, okStepWorld, hnm])
            (by simp [okRollWorld, okStepWorld])
            (by omega) (by omega)
            (by rw [hK2]; omega)
        rw [hK2] at hpos' hidx' hparts' hrfc' hclk' huid' hkey' hlens' hfin' hcreate' htrEq'
        simp only [okRollWorld, okStepWorld, okEnv] at hfile' hbucket' hlp' hnm' hip' hrfc' hclk' huid' hkey' htrace' htrEq'
        rw [show (1 : Nat) - 1 + K = K by omega] at hidx' hparts' hrfc' hclk' huid' hkey' hfin' hcreate'
        refine ⟨w', S3Call.uploadPart w.h.bucket w.h.obj_key
            (readAt w.file w.h.multipart_upload_config.pos w.h.multipart_upload_config.size)
            w.h.multipart_upload_config.index w.h.upload_id
            (sha (readAt w.file w.h.multipart_upload_config.pos
              w.h.multipart_upload_config.size)) ::
          S3Call.completeMultipartUpload w.h.bucket w.h.obj_key w.h.upload_id
            (w.h.uploaded_parts ++
              [(⟨w.h.multipart_upload_config.index, [], []⟩ : PartRecord)]) ::
          S3Call.createMultipartUpload w.h.bucket
            (some (keyOf (folderOf (clock w.clk)) nm (clock w.clk)
              (w.h.remote_file_count + 1))) :: Δ',
          hrun, ?_, ?_, ?_, ?_, ?_, ?_, ?_, ?_, ?_, ?_, ?_, ?_, ?_, ?_, ?_, ?_, ?_, ?_, ?_⟩
        · rw [hfile']
        · rw [hbucket']
        · rw [hlp']
        · rw [hnm']
        · rw [hip']
        · exact hsz'
        · rw [hpos', hK1]
          congr 1
          ring
        · rw [hidx', hK1]
          omega
        · rw [hparts', hK1]
          congr 1
          omega
        · rw [hrfc', hK1]
          omega
        · rw [hclk', hK1]
          omega
        · rw [huid', hK1]
          rw [if_neg (by omega : ¬ (9999 - 1 + (K + 1)) / 9999 = 0)]
          by_cases hk0 : K / 9999 = 0
          · rw [if_pos hk0]
          · rw [if_neg hk0]
        · rw [hkey', hK1]
          rw [if_neg (by omega : ¬ (9999 - 1 + (K + 1)) / 9999 = 0)]
          by_cases hk0 : K / 9999 = 0
          · rw [if_pos hk0]
            rw [show w.clk + ((9999 - 1 + (K + 1)) / 9999 - 1) = w.clk by omega,
              show w.h.remote_file_count + (9999 - 1 + (K + 1)) / 9999 =
                w.h.remote_file_count + 1 by omega]
            rfl
          · rw [if_neg hk0]
            rw [show w.clk + 1 + (K / 9999 - 1) = w.clk + ((9999 - 1 + (K + 1)) / 9999 - 1) by
                  omega]
            rw [show w.h.remote_file_count + 1 + K / 9999 =
                w.h.remote_file_count + (9999 - 1 + (K + 1)) / 9999 by omega]
        · rw [htrace']
          simp [List.append_assoc]
        · rw [Nat.cast_add] at htrEq'
          rw [hpos, hsz, hidx, hK1]
          simp only [okTrace]
          rw [if_pos (by omega : 9999 + 1 ≥ 10000), htrEq']
          simp only [namedKey]
        · rw [uploadBodyLens_cons_upload, uploadBodyLens_cons_complete,
            uploadBodyLens_cons_create, hlens', hbody, hK1, List.replicate_succ]
        · rw [finalizePartNums_cons_upload, finalizePartNums_cons_complete,
            finalizePartNums_cons_create, hfin', List.map_append]
          simp only [List.map_cons, List.map_nil]
          rw [hpp, hK1]
          rw [show (9999 - 1 + (K + 1)) / 9999 = K / 9999 + 1 by omega, List.replicate_succ]
        · rw [abortCalls_cons_upload, abortCalls_cons_complete, abortCalls_cons_create, habort']
        · rw [createCount_cons_upload, createCount_cons_complete, createCount_cons_create,
            hcreate', hK1]
          omega
      · -- no rollover: the index stays below the ceiling
        rw [driveLoop_iter_noroll clock sha _ fl w lp hlp hcond2 (by rw [hidx]; exact hroll)]
        obtain ⟨w', Δ', hrun, hfile', hbucket', hlp', hnm', hip', hsz', hpos', hidx', hparts',
            hrfc', hclk', huid', hkey', htrace', htrEq', hlens', hfin', habort', hcreate'⟩ :=
          ih (okStepWorld (okEnv clock sha) w) S (p + c) (i + 1) lp nm
            (by simp [okStepWorld, hfile])
            (by simp [okStepWorld, hsz])
            (by simp only [okStepWorld]
                rw [hpos, hsz]
                push_cast
                ring)
            (by simp [okStepWorld, hidx])
            (by simp [okStepWorld, hlp])
            (by simp [okStepWorld, hnm])
            (by simp only [okStepWorld, List.map_append]
                rw [hparts, hidx]
                simp only [List.map_cons, List.map_nil]
                rw [range'_snoc i hi1, Nat.add_sub_cancel])
            (by omega) (by omega)
            (by rw [hK2]; omega)
        rw [hK2] at hpos' hidx' hparts' hrfc' hclk' huid' hkey' hlens' hfin' hcreate' htrEq'
        simp only [okStepWorld, okEnv] at hfile' hbucket' hlp' hnm' hip' hrfc' hclk' huid' hkey' htrace' htrEq'
        refine ⟨w', S3Call.uploadPart w.h.bucket w.h.obj_key
            (readAt w.file w.h.multipart_upload_config.pos w.h.multipart_upload_config.size)
            w.h.multipart_upload_config.index w.h.upload_id
            (sha (readAt w.file w.h.multipart_upload_config.pos
              w.h.multipart_upload_config.size)) :: Δ',
          hrun, ?_, ?_, ?_, ?_, ?_, ?_, ?_, ?_, ?_, ?_, ?_, ?_, ?_, ?_, ?_, ?_, ?_, ?_, ?_⟩
        · rw [hfile']
        · rw [hbucket']
        · rw [hlp']
        · rw [hnm']
        · rw [hip']
        · exact hsz'
        · rw [hpos', hK1]
          congr 1
          ring
        · rw [hidx', hK1]
          omega
        · rw [hparts', hK1]
          congr 1
          omega
        · rw [hrfc', hK1]
          omega
        · rw [hclk', hK1]
          omega
        · rw [huid', hK1]
          rw [show (i + 1 - 1 + K) / 9999 = (i - 1 + (K + 1)) / 9999 by omega]
        · rw [hkey', hK1]
          rw [show (i + 1 - 1 + K) / 9999 = (i - 1 + (K + 1)) / 9999 by omega]
        · rw [htrace']
          simp [List.append_assoc]
        · rw [hidx, Nat.cast_add] at htrEq'
          rw [hpos, hsz, hidx, hK1]
          simp only [okTrace]
          rw [if_neg hroll, htrEq']
        · rw [uploadBodyLens_cons_upload, hlens', hbody, hK1, List.replicate_succ]
        · rw [finalizePartNums_cons_upload, hfin', hK1]
          congr 1
          omega
        · rw [abortCalls_cons_upload, habort']
        · rw [createCount_cons_upload, hcreate', hK1]
          omega
    · -- the loop condition fails: the drive loop stops immediately
      have hchunks : (S - p) / c = 0 := Nat.div_eq_of_lt (by omega)
      have hstop : ¬ ((S : Int) - w.h.multipart_upload_config.pos ≥
          w.h.multipart_upload_config.size) := by
        rw [hpos, hsz]
        omega
      refine ⟨w, [], driveLoop_stop _ _ _ _ hstop, rfl, rfl, rfl, rfl, rfl, hsz,
        ?_, ?_, ?_, ?_, ?_, ?_, ?_, ?_, ?_, ?_, ?_, ?_, ?_⟩
      · rw [hpos, hchunks]
        norm_num
      · rw [hidx, hchunks]
        omega
      · rw [hparts, hchunks]
        congr 1
        omega
      · rw [hchunks]
        have h0 : (i - 1 + 0) / 9999 = 0 := by omega
        rw [h0]
        omega
      · rw [hchunks]
        have h0 : (i - 1 + 0) / 9999 = 0 := by omega
        rw [h0]
        omega
      · rw [hchunks]
        rw [if_pos (by omega : (i - 1 + 0) / 9999 = 0)]
      · rw [hchunks]
        rw [if_pos (by omega : (i - 1 + 0) / 9999 = 0)]
      · simp
      · rw [hchunks]
        rfl
      · rw [hchunks]
        simp [uploadBodyLens]
      · rw [hchunks]
        have : (i - 1 + 0) / 9999 = 0 := by omega
        rw [this]
        simp [finalizePartNums]
      · simp [abortCalls]
      · rw [hchunks]
        have : (i - 1 + 0) / 9999 = 0 := by omega
        rw [this]
        simp [createCount]

theorem multipart_upload_done (env : Env) (fuel : Nat) (w w1 : World) (u : Nat) (lp : PyStr)
    (hu : w.h.upload_id = some u) (hu0 : u ≠ 0) (hlp : w.h.log_path = some lp)
    (hdrv : driveLoop env (w.file.length : Int) fuel w = (.done, w1)) :
    multipart_upload env fuel w = (.done, w1) := by
  unfold multipart_upload
  rw [hu, if_neg (by simp [truthy, hu0]), hlp]
  simp [hdrv]

/-- A driver call on a state whose remaining byte count is below the chunk
size does nothing: the loop condition fails immediately. -/
theorem drive_noop (env : Env) (w : World) (u : Nat) (lp : PyStr)
    (hu : w.h.upload_id = some u) (hu0 : u ≠ 0) (hlp : w.h.log_path = some lp)
    (hcond : ¬ ((w.file.length : Int) - w.h.multipart_upload_config.pos ≥
      w.h.multipart_upload_config.size)) :
    drive env w = (.done, w) :=
  multipart_upload_done env _ w w u lp hu hu0 hlp (driveLoop_stop env _ _ w hcond)

theorem drivesN_done (env : Env) (n : Nat) (w : World) (u : Nat) (lp : PyStr)
    (hu : w.h.upload_id = some u) (hu0 : u ≠ 0) (hlp : w.h.log_path = some lp)
    (hcond : ¬ ((w.file.length : Int) - w.h.multipart_upload_config.pos ≥
      w.h.multipart_upload_config.size)) :
    drivesN env n w = (.done, w) := by
  induction n with
  | zero => rfl
  | succ k ih =>
    simp only [drivesN]
    rw [drive_noop env w u lp hu hu0 hlp hcond]
    exact ih

/-- `initiate_upload` on an idle handler: it marks the session in progress,
stores path and name, computes folder and key, creates the upload — and
leaves `multipart_upload_config` and `uploaded_parts` untouched. -/
theorem initiate_ok (clock : Nat → Timestamp) (sha : Bytes → PyStr) (w : World) (logPath : PyStr)
    (hip : w.h.upload_in_progress = false) :
    initiate_upload (okEnv clock sha) w logPath =
      (.ok (), { w with
        h := { w.h with
          log_path := some logPath
          log_name := some (pathName logPath)
          upload_in_progress := true
          remote_folder_path := some (folderOf (clock w.clk))
          obj_key := some (keyOf (folderOf (clock w.clk)) (pathName logPath) (clock w.clk)
            w.h.remote_file_count)
          upload_id := some 1 }
        trace := w.trace ++ [S3Call.createMultipartUpload w.h.bucket
          (some (keyOf (folderOf (clock w.clk)) (pathName logPath) (clock w.clk)
            w.h.remote_file_count))]
        clk := w.clk + 1 }) := by
  simp [initiate_upload, hip, remote_log_naming, optStr, keyOf, uploadTimeOf, okEnv, okSvc]
  cases hf : strFind '.' (pathName logPath) <;> by_cases h0 : w.h.remote_file_count = 0 <;>
    simp [hf, h0, List.append_assoc]

/-- `complete_upload` on a state whose remainder is strictly below the
configured chunk size, under the all-success service: it shrinks `size` to
the remainder (persistently), uploads the final part with the current index,
finalizes with the accumulated parts, and resets the session flags. -/
theorem complete_ok (clock : Nat → Timestamp) (sha : Bytes → PyStr) (w : World)
    (S p i u c : Nat) (lp : PyStr)
    (hfile : w.file.length = S)
    (hsz : w.h.multipart_upload_config.size = (c : Int))
    (hpos : w.h.multipart_upload_config.pos = (p : Int))
    (hidx : w.h.multipart_upload_config.index = i)
    (hu : w.h.upload_id = some u) (hu0 : u ≠ 0)
    (hlp : w.h.log_path = some lp)
    (hp : p ≤ S) (hrem : S - p < c) :
    complete_upload (okEnv clock sha) w =
      (.ok (), { w with
        h := { w.h with
          multipart_upload_config :=
            { size := ((S - p : Nat) : Int), index := i + 1, pos := (p : Int) }
          uploaded_parts := w.h.uploaded_parts ++ [⟨i, [], []⟩]
          upload_in_progress := false
          upload_id := none
          obj_key := none }
        trace := w.trace ++
          [S3Call.uploadPart w.h.bucket w.h.obj_key
            (readAt w.file (p : Int) ((S - p : Nat) : Int)) i (some u)
            (sha (readAt w.file (p : Int) ((S - p : Nat) : Int))),
           S3Call.completeMultipartUpload w.h.bucket w.h.obj_key (some u)
             (w.h.uploaded_parts ++ [⟨i, [], []⟩]),
           S3Call.headObject w.h.bucket w.h.obj_key] }) := by
  have hcast : (S : Int) - (p : Int) = ((S - p : Nat) : Int) := by omega
  have htr : truthy w.h.upload_id = true := by rw [hu]; simp [truthy, hu0]
  have hcnd : (w.file.length : Int) - w.h.multipart_upload_config.pos <
      w.h.multipart_upload_config.size := by
    rw [hfile, hpos, hsz]
    omega
  simp only [complete_upload, upload_part, okEnv, okSvc, htr, Bool.not_true,
    Bool.false_eq_true, if_false, hlp, if_pos hcnd]
  rw [hfile, hpos]
  simp [hidx, hu, hcast]

/-- `driveLoop_ok` lifted through the `multipart_upload` wrapper with the
fuel `drive` supplies. -/
theorem drive_ok (clock : Nat → Timestamp) (sha : Bytes → PyStr) (c : Nat) (hc : 1 ≤ c)
    (w : World) (S p i u : Nat) (lp nm : PyStr)
    (hfile : w.file.length = S)
    (hsz : w.h.multipart_upload_config.size = (c : Int))
    (hpos : w.h.multipart_upload_config.pos = (p : Int))
    (hidx : w.h.multipart_upload_config.index = i)
    (hlp : w.h.log_path = some lp)
    (hnm : w.h.log_name = some nm)
    (hu : w.h.upload_id = some u) (hu0 : u ≠ 0)
    (hparts : w.h.uploaded_parts.map (·.partNumber) = List.range' 1 (i - 1))
    (hi1 : 1 ≤ i) (hi2 : i ≤ 9999) :
    ∃ w' Δ,
      drive (okEnv clock sha) w = (.done, w') ∧
      w'.file = w.file ∧
      w'.h.bucket = w.h.bucket ∧
      w'.h.log_path = w.h.log_path ∧
      w'.h.log_name = w.h.log_name ∧
      w'.h.upload_in_progress = w.h.upload_in_progress ∧
      w'.h.multipart_upload_config.size = (c : Int) ∧
      w'.h.multipart_upload_config.pos = ((p + c * ((S - p) / c) : Nat) : Int) ∧
      w'.h.multipart_upload_config.index = (i - 1 + (S - p) / c) % 9999 + 1 ∧
      w'.h.uploaded_parts.map (·.partNumber) = List.range' 1 ((i - 1 + (S - p) / c) % 9999) ∧
      w'.h.remote_file_count = w.h.remote_file_count + (i - 1 + (S - p) / c) / 9999 ∧
      w'.clk = w.clk + (i - 1 + (S - p) / c) / 9999 ∧
      w'.h.upload_id = (if (i - 1 + (S - p) / c) / 9999 = 0 then w.h.upload_id else some 1) ∧
      w'.h.obj_key = (if (i - 1 + (S - p) / c) / 9999 = 0 then w.h.obj_key
        else some (namedKey nm (clock (w.clk + ((i - 1 + (S - p) / c) / 9999 - 1)))
          (w.h.remote_file_count + (i - 1 + (S - p) / c) / 9999))) ∧
      w'.trace = w.trace ++ Δ ∧
      Δ = okTrace clock sha w.file w.h.bucket nm (c : Int) ((S - p) / c) (p : Int) i
        w.h.upload_id w.h.obj_key w.h.uploaded_parts w.h.remote_file_count w.clk ∧
      uploadBodyLens Δ = List.replicate ((S - p) / c) c ∧
      finalizePartNums Δ = List.replicate ((i - 1 + (S - p) / c) / 9999) (List.range' 1 9999) ∧
      abortCalls Δ = [] ∧
      createCount Δ = (i - 1 + (S - p) / c) / 9999 := by
  obtain ⟨w', Δ, hrun, hrest⟩ :=
    driveLoop_ok clock sha c hc (S + 1) w S p i lp nm hfile hsz hpos hidx hlp hnm
      hparts hi1 hi2
      (Nat.add_le_add_right (le_trans (Nat.div_le_self _ _) (Nat.sub_le _ _)) 1)
  exact ⟨w', Δ, multipart_upload_done _ _ _ _ u lp hu hu0 hlp (by rw [hfile]; exact hrun), hrest⟩

/-- Full characterisation of `runIDC` (initiate, repeated drives, complete)
from a freshly constructed handler under the all-success service. -/
theorem runIDC_ok (clock : Nat → Timestamp) (sha : Bytes → PyStr) (bucket logPath : PyStr)
    (file : Bytes) (c : Nat) (hc : 1 ≤ c) (n : Nat) :
    ∃ w',
      runIDC (okEnv clock sha) n bucket logPath file (c : Int) = (.ok, w') ∧
      w'.h.multipart_upload_config.size = ((file.length % c : Nat) : Int) ∧
      w'.h.upload_in_progress = false ∧
      w'.h.upload_id = none ∧
      w'.h.obj_key = none ∧
      uploadBodyLens w'.trace = List.replicate (file.length / c) c ++ [file.length % c] ∧
      finalizePartNums w'.trace =
        List.replicate (file.length / c / 9999) (List.range' 1 9999) ++
          [List.range' 1 (file.length / c % 9999 + 1)] ∧
      abortCalls w'.trace = [] ∧
      (∀ k pn, pn ∈ finalizesToKey w'.trace k →
        pn = List.range' 1 (uploadNumsToKey w'.trace k).length) := by
  obtain ⟨q, hq⟩ : ∃ q, file.length / c = q := ⟨_, rfl⟩
  obtain ⟨r, hr⟩ : ∃ r, file.length % c = r := ⟨_, rfl⟩
  have hqr : c * q + r = file.length := by rw [← hq, ← hr]; exact Nat.div_add_mod _ _
  have hrc : r < c := by rw [← hr]; exact Nat.mod_lt _ (by omega)
  have hinit := initiate_ok clock sha (freshWorld bucket file (c : Int)) logPath rfl
  obtain ⟨w2, Δ, hdrive, hfile2, hbucket2, hlp2, hnm2, hip2, hsz2, hpos2, hidx2, hparts2,
      hrfc2, hclk2, huid2, hkey2, htrace2, htrEq2, hlens2, hfin2, habort2, hcreate2⟩ :=
    drive_ok clock sha c hc
      ((initiate_upload (okEnv clock sha) (freshWorld bucket file (c : Int)) logPath).2)
      file.length 0 1 1 logPath (pathName logPath)
      rfl rfl rfl rfl rfl rfl rfl (by norm_num) rfl (le_refl 1) (by norm_num)
  rw [hinit] at hfile2 hbucket2 hlp2 hnm2 hip2 huid2 htrace2 hkey2 htrEq2
  dsimp only at hfile2 hbucket2 hlp2 hnm2 hip2 huid2 htrace2 hkey2 htrEq2
  dsimp only [freshWorld, mkHandler] at hfile2 htrace2 hkey2 htrEq2
  simp only [Nat.sub_zero, Nat.zero_add, hq] at hpos2 hidx2 hparts2 hrfc2 hclk2 huid2 hkey2 hlens2 hfin2 hcreate2 htrEq2
  rw [show (1 : Nat) - 1 + q = q by omega] at hidx2 hparts2 hrfc2 hclk2 huid2 hkey2 hfin2 hcreate2
  have hfl2 : w2.file.length = file.length := by rw [hfile2]
  have hlp2s : w2.h.log_path = some logPath := hlp2
  have huid2s : w2.h.upload_id = some 1 := by
    rw [huid2]
    by_cases h0 : q / 9999 = 0 <;> simp [h0]
  have hpos2n : w2.h.multipart_upload_config.pos = ((c * q : Nat) : Int) := hpos2
  have hsub : file.length - c * q = r := by rw [← hqr, Nat.add_sub_cancel_left]
  have hcond2 : ¬ ((w2.file.length : Int) - w2.h.multipart_upload_config.pos ≥
      w2.h.multipart_upload_config.size) := by
    rw [hfl2, hpos2n, hsz2]
    push_cast
    have : (c : Int) * q + r = file.length := by exact_mod_cast hqr
    have hrci : (r : Int) < c := by exact_mod_cast hrc
    omega
  have hdN : drivesN (okEnv clock sha) (n + 1)
      ((initiate_upload (okEnv clock sha) (freshWorld bucket file (c : Int)) logPath).2) =
      (.done, w2) := by
    simp only [drivesN]
    rw [hdrive]
    exact drivesN_done _ n w2 1 logPath huid2s (by norm_num) hlp2s hcond2
  rw [hinit] at hdN
  dsimp only at hdN
  have hcomp := complete_ok clock sha w2 file.length (c * q) (q % 9999 + 1) 1 c logPath
    hfl2 hsz2 hpos2n hidx2 huid2s (by norm_num) hlp2s (Nat.le.intro hqr)
    (by rw [hsub]; exact hrc)
  refine ⟨(complete_upload (okEnv clock sha) w2).2, ?_, ?_, ?_, ?_, ?_, ?_, ?_, ?_, ?_⟩
  · unfold runIDC
    dsimp only
    rw [hinit]
    dsimp only
    rw [hdN]
    dsimp only
    rw [hcomp]
  · rw [hcomp]
    dsimp only
    rw [hsub, hr]
  · rw [hcomp]
  · rw [hcomp]
  · rw [hcomp]
  · rw [hcomp]
    dsimp only
    rw [htrace2]
    simp only [List.append_assoc, List.nil_append, uploadBodyLens_append, uploadBodyLens_nil,
      uploadBodyLens_cons_create, uploadBodyLens_cons_upload, uploadBodyLens_cons_complete,
      uploadBodyLens_cons_head, hlens2]
    rw [readAt_length, hfl2, hsub, hq, hr]
    simp
  · rw [hcomp]
    dsimp only
    rw [htrace2]
    have hsnoc : List.range' 1 (q % 9999) ++ [q % 9999 + 1] = List.range' 1 (q % 9999 + 1) := by
      have h9 := range'_snoc (q % 9999 + 1) (by omega)
      rwa [Nat.add_sub_cancel] at h9
    simp only [List.append_assoc, List.nil_append, finalizePartNums_append,
      finalizePartNums_nil, finalizePartNums_cons_create, finalizePartNums_cons_upload,
      finalizePartNums_cons_complete, finalizePartNums_cons_head, hfin2, List.map_append,
      hparts2, List.map_cons, List.map_nil]
    rw [hq]
    simp [hsnoc]
  · rw [hcomp]
    dsimp only
    rw [htrace2]
    simp only [List.append_assoc, List.nil_append, abortCalls_append, abortCalls_nil,
      abortCalls_cons_create, abortCalls_cons_upload, abortCalls_cons_complete,
      abortCalls_cons_head, habort2]
  · -- every finalize lists exactly the parts uploaded to its key
    rw [hcomp]
    dsimp only
    intro k pn hpn
    have hnmns : '/' ∉ pathName logPath := pathName_no_slash logPath
    have hfresh0 : ∀ j, (some (keyOf (folderOf (clock 0)) (pathName logPath) (clock 0) 0) :
        Option PyStr) ≠ some (namedKey (pathName logPath) (clock (1 + j)) (0 + 1 + j)) := by
      intro j h
      exact namedKey_count_inj (pathName logPath) (clock 0) (clock (1 + j)) (by omega) hnmns
        (Option.some.inj h)
    obtain ⟨GA, GB0, GBj, GC0, GCl⟩ :=
      okTrace_key_facts clock sha file bucket (pathName logPath) (c : Int) hnmns q
        ((0 : Nat) : Int) 1 (some 1)
        (some (keyOf (folderOf (clock 0)) (pathName logPath) (clock 0) 0)) [] 0 1
        (le_refl 1) (by omega) rfl hfresh0
    rw [show (1 : Nat) - 1 + q = q from by omega] at GA GB0 GBj GC0 GCl
    simp only [Nat.zero_add] at GA GB0 GBj GC0 GCl
    rw [show (10000 : Nat) - 1 = 9999 from by norm_num] at GB0
    have hsn : ∀ m : Nat, List.range' 1 m ++ [m + 1] = List.range' 1 (m + 1) := by
      intro m
      have h9 := range'_snoc (m + 1) (by omega)
      rwa [Nat.add_sub_cancel] at h9
    rw [htrace2, htrEq2] at hpn ⊢
    simp only [List.nil_append, List.append_assoc, List.singleton_append,
      List.cons_append] at hpn ⊢
    rw [finalizesToKey_cons_create, finalizesToKey_append, finalizesToKey_cons_upload] at hpn
    rw [uploadNumsToKey_cons_create, uploadNumsToKey_append]
    by_cases hkl : w2.h.obj_key = k
    · -- the completion phase finalizes this key
      subst hkl
      rw [finalizesToKey_cons_complete_eq, finalizesToKey_cons_head,
        finalizesToKey_nil] at hpn
      rw [uploadNumsToKey_cons_upload_eq, uploadNumsToKey_cons_complete,
        uploadNumsToKey_cons_head, uploadNumsToKey_nil]
      by_cases hN : q / 9999 = 0
      · rw [hkey2, if_pos hN] at hpn ⊢
        have hq9 : q % 9999 = q := by omega
        rw [(GC0 hN).2] at hpn
        simp only [List.nil_append, List.mem_singleton] at hpn
        rw [(GC0 hN).1, hpn, List.map_append, hparts2, hq9]
        simp only [List.map_cons, List.map_nil]
        rw [hsn q, List.length_range']
      · rw [hkey2, if_neg hN] at hpn ⊢
        rw [(GCl hN).2] at hpn
        simp only [List.nil_append, List.mem_singleton] at hpn
        rw [(GCl hN).1, hpn, List.map_append, hparts2]
        simp only [List.map_cons, List.map_nil]
        rw [hsn (q % 9999), List.length_range']
    · -- keys the completion phase does not touch
      rw [finalizesToKey_cons_complete_ne _ _ _ _ _ _ hkl, finalizesToKey_cons_head,
        finalizesToKey_nil, List.append_nil] at hpn
      rw [uploadNumsToKey_cons_upload_ne _ _ _ _ _ _ _ _ hkl, uploadNumsToKey_cons_complete,
        uploadNumsToKey_cons_head, uploadNumsToKey_nil, List.append_nil]
      by_cases hk0 : k = some (keyOf (folderOf (clock 0)) (pathName logPath) (clock 0) 0)
      · subst hk0
        by_cases hN : q / 9999 = 0
        · rw [hkey2, if_pos hN] at hkl
          exact absurd rfl hkl
        · obtain ⟨GBu, GBf⟩ := GB0 hN
          rw [GBf] at hpn
          rw [List.mem_singleton] at hpn
          rw [GBu, hpn, List.length_range']
      · by_cases hex : ∃ j, j + 1 < q / 9999 ∧
            k = some (namedKey (pathName logPath) (clock (1 + j)) (1 + j))
        · obtain ⟨j, hjlt, hkj⟩ := hex
          subst hkj
          obtain ⟨GBu, GBf⟩ := GBj j hjlt
          rw [GBf] at hpn
          rw [List.mem_singleton] at hpn
          rw [GBu, hpn, List.length_range']
        · have hknotfut : ∀ j, j < q / 9999 →
              k ≠ some (namedKey (pathName logPath) (clock (1 + j)) (1 + j)) := by
            intro j hj hkj
            by_cases hjl : j + 1 < q / 9999
            · exact hex ⟨j, hjl, hkj⟩
            · have hjeq : j = q / 9999 - 1 := by omega
              subst hjeq
              rw [hkey2, if_neg (by omega : ¬ q / 9999 = 0)] at hkl
              exact hkl (by
                rw [hkj]
                exact congrArg
                  (fun t => some (namedKey (pathName logPath)
                    (clock (1 + (q / 9999 - 1))) t))
                  (by omega : q / 9999 = 1 + (q / 9999 - 1)))
          obtain ⟨GAu, GAf⟩ := GA k hk0 hknotfut
          rw [GAf] at hpn
          exact absurd hpn (List.not_mem_nil pn)

/-- `initiate_upload` while a session is marked in progress: the
already-in-progress error is raised and nothing changes. -/
theorem initiate_blocked (env : Env) (w : World) (logPath : PyStr)
    (hip : w.h.upload_in_progress = true) :
    initiate_upload env w logPath = (.error (.exc msgAlreadyInProgress), w) := by
  simp [initiate_upload, hip]

/-- A drive call whose first part upload fails with `e` while abort calls
succeed: the helper issues an abort and wraps the error with the failing part
index, the drive handler issues a second abort with the same arguments, and
the wrapped error propagates. -/
theorem drive_fail_first (clock : Nat → Timestamp) (sha : Bytes → PyStr) (e : PyErr)
    (w : World) (S p i u c : Nat) (lp : PyStr)
    (hfile : w.file.length = S)
    (hsz : w.h.multipart_upload_config.size = (c : Int))
    (hpos : w.h.multipart_upload_config.pos = (p : Int))
    (hidx : w.h.multipart_upload_config.index = i)
    (hu : w.h.upload_id = some u) (hu0 : u ≠ 0)
    (hlp : w.h.log_path = some lp)
    (hcond : p + c ≤ S) :
    drive (failEnvOf e clock sha) w =
      (.failed (.partExc i e),
        { w with trace := w.trace ++
          [S3Call.uploadPart w.h.bucket w.h.obj_key
            (readAt w.file w.h.multipart_upload_config.pos w.h.multipart_upload_config.size) i
            (some u) (sha (readAt w.file w.h.multipart_upload_config.pos
              w.h.multipart_upload_config.size)),
           S3Call.abortMultipartUpload w.h.bucket w.h.obj_key (some u),
           S3Call.abortMultipartUpload w.h.bucket w.h.obj_key (some u)] }) := by
  have htr : truthy w.h.upload_id = true := by rw [hu]; simp [truthy, hu0]
  have hc2 : (w.file.length : Int) - w.h.multipart_upload_config.pos ≥
      w.h.multipart_upload_config.size := by
    rw [hfile, hpos, hsz]
    omega
  simp only [drive, multipart_upload, htr, Bool.not_true, Bool.false_eq_true, if_false, hlp]
  simp only [driveLoop, if_pos hc2, upload_part, hlp, failEnvOf, failUploadSvc, okSvc]
  simp [hidx, hu, List.append_assoc]

/-- A drive call whose first part upload fails with `e` while abort calls
fail with `e2`: the abort failure raised inside the helper's handler
replaces the part error, and the drive handler's abort fails the same way,
so `e2` is what reaches the caller. -/
theorem drive_fail_abort (clock : Nat → Timestamp) (sha : Bytes → PyStr) (e e2 : PyErr)
    (he2 : e2 ≠ .noCredentials)
    (w : World) (S p i u c : Nat) (lp : PyStr)
    (hfile : w.file.length = S)
    (hsz : w.h.multipart_upload_config.size = (c : Int))
    (hpos : w.h.multipart_upload_config.pos = (p : Int))
    (hidx : w.h.multipart_upload_config.index = i)
    (hu : w.h.upload_id = some u) (hu0 : u ≠ 0)
    (hlp : w.h.log_path = some lp)
    (hcond : p + c ≤ S) :
    drive (failAbortEnvOf e e2 clock sha) w =
      (.failed e2,
        { w with trace := w.trace ++
          [S3Call.uploadPart w.h.bucket w.h.obj_key
            (readAt w.file w.h.multipart_upload_config.pos w.h.multipart_upload_config.size) i
            (some u) (sha (readAt w.file w.h.multipart_upload_config.pos
              w.h.multipart_upload_config.size)),
           S3Call.abortMultipartUpload w.h.bucket w.h.obj_key (some u),
           S3Call.abortMultipartUpload w.h.bucket w.h.obj_key (some u)] }) := by
  have htr : truthy w.h.upload_id = true := by rw [hu]; simp [truthy, hu0]
  have hc2 : (w.file.length : Int) - w.h.multipart_upload_config.pos ≥
      w.h.multipart_upload_config.size := by
    rw [hfile, hpos, hsz]
    omega
  cases e2 with
  | noCredentials => exact absurd rfl he2
  | valueErr m =>
    simp only [drive, multipart_upload, htr, Bool.not_true, Bool.false_eq_true, if_false, hlp]
    simp only [driveLoop, if_pos hc2, upload_part, hlp, failAbortEnvOf, failUploadAbortSvc,
      okSvc]
    simp [hidx, hu, List.append_assoc]
  | exc m =>
    simp only [drive, multipart_upload, htr, Bool.not_true, Bool.false_eq_true, if_false, hlp]
    simp only [driveLoop, if_pos hc2, upload_part, hlp, failAbortEnvOf, failUploadAbortSvc,
      okSvc]
    simp [hidx, hu, List.append_assoc]
  | partExc j cause =>
    simp only [drive, multipart_upload, htr, Bool.not_true, Bool.false_eq_true, if_false, hlp]
    simp only [driveLoop, if_pos hc2, upload_part, hlp, failAbortEnvOf, failUploadAbortSvc,
      okSvc]
    simp [hidx, hu, List.append_assoc]

/-- C9 counterexample: in the session initiated after a completed session,
only parts numbered 3 and 4 are uploaded to the new remote object, yet its
finalize request lists part numbers `[1, 2, 3, 4]` — not the contiguous run
`1..n` for the `n = 2` parts uploaded to that object. -/
theorem C9_counterexample :
    lastFinalizeKey sessW6.trace = some sessKey2 ∧
    uploadNumsToKey sessW6.trace sessKey2 = [3, 4] ∧
    List.range' 1 (uploadNumsToKey sessW6.trace sessKey2).length = [1, 2] ∧
    finalizesToKey sessW6.trace sessKey2 = [[1, 2, 3, 4]] := by
  decide

/-- Initiate followed by one drive over a file of exactly `9999 * c * m`
bytes with chunk size `c`: the drive rolls over `m` times.  Each of the `m`
finalizes carries parts 1..9999; afterwards `index` is 1, the parts list is
empty, the file count is `m`, `pos` sits at the end of the uploaded bytes,
and the `m + 1` keys created during the run (the initial object plus one
per rollover, with counts 0..m) are pairwise distinct. -/
theorem runID_rolls (clock : Nat → Timestamp) (sha : Bytes → PyStr) (bucket logPath : PyStr)
    (file : Bytes) (c m : Nat) (hc : 1 ≤ c) (hm : 1 ≤ m)
    (hS : file.length = 9999 * c * m) :
    ∃ w1 w2,
      initiate_upload (okEnv clock sha) (freshWorld bucket file (c : Int)) logPath =
        (.ok (), w1) ∧
      drive (okEnv clock sha) w1 = (.done, w2) ∧
      finalizePartNums w2.trace = List.replicate m (List.range' 1 9999) ∧
      uploadBodyLens w2.trace = List.replicate (9999 * m) c ∧
      w2.h.remote_file_count = m ∧
      w2.h.multipart_upload_config.index = 1 ∧
      w2.h.uploaded_parts = [] ∧
      w2.h.multipart_upload_config.pos = ((9999 * c * m : Nat) : Int) ∧
      createKeys w2.trace =
        (List.range (m + 1)).map (fun j => some (namedKey (pathName logPath) (clock j) j)) ∧
      (createKeys w2.trace).Pairwise (· ≠ ·) := by
  have hq : file.length / c = 9999 * m := by
    rw [hS, show 9999 * c * m = 9999 * m * c from by ring]
    exact Nat.mul_div_cancel (9999 * m) (by omega)
  have hdv : 9999 * m / 9999 = m := Nat.mul_div_cancel_left m (by omega)
  have hmd : 9999 * m % 9999 = 0 := Nat.mul_mod_right 9999 m
  have hinit := initiate_ok clock sha (freshWorld bucket file (c : Int)) logPath rfl
  obtain ⟨w2, Δ, hdrive, hfile2, hbucket2, hlp2, hnm2, hip2, hsz2, hpos2, hidx2, hparts2,
      hrfc2, hclk2, huid2, hkey2, htrace2, htrEq2, hlens2, hfin2, habort2, hcreate2⟩ :=
    drive_ok clock sha c hc
      ((initiate_upload (okEnv clock sha) (freshWorld bucket file (c : Int)) logPath).2)
      file.length 0 1 1 logPath (pathName logPath)
      rfl rfl rfl rfl rfl rfl rfl (by norm_num) rfl (le_refl 1) (by norm_num)
  rw [hinit] at htrace2 htrEq2 hrfc2 hdrive
  dsimp only at htrace2 htrEq2 hrfc2 hdrive
  dsimp only [freshWorld, mkHandler] at htrace2 htrEq2 hrfc2
  simp only [Nat.sub_zero, Nat.zero_add, hq] at hpos2 hidx2 hparts2 hrfc2 hlens2 hfin2 htrEq2
  rw [show (1 : Nat) - 1 + 9999 * m = 9999 * m by omega] at hidx2 hparts2 hrfc2 hfin2
  rw [hdv] at hrfc2 hfin2
  rw [hmd] at hidx2 hparts2
  have hckD := okTrace_createKeys clock sha file bucket (pathName logPath) (c : Int)
    (9999 * m) ((0 : Nat) : Int) 1 (some 1)
    (some (keyOf (folderOf (clock 0)) (pathName logPath) (clock 0) 0)) [] 0 1
    (le_refl 1) (by omega)
  rw [show (1 : Nat) - 1 + 9999 * m = 9999 * m by omega, hdv] at hckD
  have hck : createKeys w2.trace =
      (List.range (m + 1)).map (fun j => some (namedKey (pathName logPath) (clock j) j)) := by
    rw [htrace2, htrEq2]
    simp only [List.nil_append, List.singleton_append, List.cons_append, createKeys_append,
      createKeys_cons_create, createKeys_nil]
    rw [hckD, List.range_succ_eq_map]
    simp only [List.map_cons, List.map_map]
    congr 1
    apply List.map_congr_left
    intro j hj
    simp only [Function.comp_apply, Nat.succ_eq_add_one]
    rw [show (1 : Nat) + j = j + 1 from by omega]
  have hpw : (createKeys w2.trace).Pairwise (· ≠ ·) := by
    rw [hck, List.pairwise_map]
    refine List.Pairwise.imp ?_ (List.pairwise_lt_range (m + 1))
    intro a b hab h
    exact namedKey_count_inj (pathName logPath) (clock a) (clock b) (Nat.ne_of_lt hab)
      (pathName_no_slash logPath) (Option.some.inj h)
  refine ⟨_, w2, hinit, hdrive, ?_, ?_, hrfc2, ?_, ?_, ?_, hck, hpw⟩
  · rw [htrace2]
    simp only [List.nil_append, List.singleton_append, List.cons_append,
      finalizePartNums_append, finalizePartNums_cons_create, finalizePartNums_nil,
      List.nil_append, hfin2]
  · rw [htrace2]
    simp only [List.nil_append, List.singleton_append, List.cons_append,
      uploadBodyLens_append, uploadBodyLens_cons_create, uploadBodyLens_nil,
      List.nil_append, hlens2]
  · rw [hidx2]
  · simpa using hparts2
  · rw [hpos2]
    congr 1
    ring

/-- C1 (corrected): a full run over a file of size `S` with configured chunk
size `C ≥ 1` uploads exactly `⌊S/C⌋` full-size parts during the drive calls,
and `complete_upload` then always uploads one additional part of size
`S mod C` — including a zero-length part when `S` is an exact multiple of
`C`, contrary to the claim that no extra part is uploaded in that case. -/
theorem C1_thm (clock : Nat → Timestamp) (sha : Bytes → PyStr) (bucket logPath : PyStr)
    (file : Bytes) (c : Nat) (hc : 1 ≤ c) (n : Nat) :
    (runIDC (okEnv clock sha) n bucket logPath file (c : Int)).1 = .ok ∧
    uploadBodyLens (runIDC (okEnv clock sha) n bucket logPath file (c : Int)).2.trace =
      List.replicate (file.length / c) c ++ [file.length % c] := by
  obtain ⟨w', hrun, hsz, hip, huid, hkey, hlens, hfin, habort, hkeyed⟩ :=
    runIDC_ok clock sha bucket logPath file c hc n
  rw [hrun]
  exact ⟨rfl, hlens⟩

theorem C1_thm_witness :
    1 ≤ 2 ∧
    ((runIDC (okEnv cxClock (fun _ => [])) 0 cxBucket cxPath ([7, 7, 7] : Bytes)
        ((2 : Nat) : Int)).1 = .ok ∧
      uploadBodyLens (runIDC (okEnv cxClock (fun _ => [])) 0 cxBucket cxPath
          ([7, 7, 7] : Bytes) ((2 : Nat) : Int)).2.trace =
        List.replicate (([7, 7, 7] : Bytes).length / 2) 2 ++
          [([7, 7, 7] : Bytes).length % 2]) :=
  ⟨by norm_num, C1_thm cxClock (fun _ => []) cxBucket cxPath [7, 7, 7] 2 (by norm_num) 0⟩

/-- C3 (corrected): after a successful full run the configured chunk size is
not restored: it remains at the remainder `S mod C` that `complete_upload`
wrote into the configuration, so a later session starts from the shrunk
size, not the originally configured one. -/
theorem C3_thm (clock : Nat → Timestamp) (sha : Bytes → PyStr) (bucket logPath : PyStr)
    (file : Bytes) (c : Nat) (hc : 1 ≤ c) (n : Nat) :
    (runIDC (okEnv clock sha) n bucket logPath file (c : Int)).1 = .ok ∧
    (runIDC (okEnv clock sha) n bucket logPath file
        (c : Int)).2.h.multipart_upload_config.size = ((file.length % c : Nat) : Int) := by
  obtain ⟨w', hrun, hsz, hip, huid, hkey, hlens, hfin, habort, hkeyed⟩ :=
    runIDC_ok clock sha bucket logPath file c hc n
  rw [hrun]
  exact ⟨rfl, hsz⟩

theorem C3_thm_witness :
    1 ≤ 2 ∧
    ((runIDC (okEnv cxClock (fun _ => [])) 0 cxBucket cxPath ([7, 7, 7] : Bytes)
        ((2 : Nat) : Int)).1 = .ok ∧
      (runIDC (okEnv cxClock (fun _ => [])) 0 cxBucket cxPath ([7, 7, 7] : Bytes)
          ((2 : Nat) : Int)).2.h.multipart_upload_config.size =
        ((([7, 7, 7] : Bytes).length % 2 : Nat) : Int)) :=
  ⟨by norm_num, C3_thm cxClock (fun _ => []) cxBucket cxPath [7, 7, 7] 2 (by norm_num) 0⟩

/-- C9 (corrected): within a single session — one initiate, any number of
drive calls, one complete — every finalize request the engine issues
carries part numbers exactly `1..n` with no gaps, in ascending order, where
`n` is the number of parts uploaded to that finalize's object key; the
cross-session counterexample shows the invariant does not survive into a
session initiated after an earlier one completed. -/
theorem C9_thm (clock : Nat → Timestamp) (sha : Bytes → PyStr) (bucket logPath : PyStr)
    (file : Bytes) (c : Nat) (hc : 1 ≤ c) (n : Nat) :
    (runIDC (okEnv clock sha) n bucket logPath file (c : Int)).1 = .ok ∧
    ∀ k pn, pn ∈ finalizesToKey
        (runIDC (okEnv clock sha) n bucket logPath file (c : Int)).2.trace k →
      pn = List.range' 1 (uploadNumsToKey
        (runIDC (okEnv clock sha) n bucket logPath file (c : Int)).2.trace k).length := by
  obtain ⟨w', hrun, hsz, hip, huid, hkey, hlens, hfin, habort, hkeyed⟩ :=
    runIDC_ok clock sha bucket logPath file c hc n
  rw [hrun]
  exact ⟨rfl, hkeyed⟩

theorem C9_thm_witness :
    1 ≤ 2 ∧
    ((runIDC (okEnv cxClock (fun _ => [])) 0 cxBucket cxPath ([7, 7, 7] : Bytes)
        ((2 : Nat) : Int)).1 = .ok ∧
      ∀ k pn, pn ∈ finalizesToKey (runIDC (okEnv cxClock (fun _ => [])) 0 cxBucket cxPath
          ([7, 7, 7] : Bytes) ((2 : Nat) : Int)).2.trace k →
        pn = List.range' 1 (uploadNumsToKey (runIDC (okEnv cxClock (fun _ => [])) 0 cxBucket
          cxPath ([7, 7, 7] : Bytes) ((2 : Nat) : Int)).2.trace k).length) :=
  ⟨by norm_num, C9_thm cxClock (fun _ => []) cxBucket cxPath [7, 7, 7] 2 (by norm_num) 0⟩

/-- C2 counterexample: chunk size 1 over a 9999-byte file.  The 9999th
uploaded part pushes `index` to 10000 and immediately triggers the rollover:
the object is finalized with parts 1..9999, not with the 10000 parts the
ceiling wording would allow it to accumulate. -/
theorem C2_counterexample :
    c2res.1 = .done ∧
    c2res.2.h.remote_file_count = 1 ∧
    uploadBodyLens c2res.2.trace = List.replicate 9999 1 ∧
    finalizePartNums c2res.2.trace = [List.range' 1 9999] := by
  obtain ⟨w1, w2, hinit, hdrive, hfin, hlens, hrfc, hidx, hparts, hpos, hck, hpw⟩ :=
    runID_rolls cxClock (fun _ => []) cxBucket cxPath (List.replicate 9999 0) 1 1
      (le_refl 1) (le_refl 1) (by rw [List.length_replicate])
  have hi : initiate_upload cxEnv (freshWorld cxBucket (List.replicate 9999 0) 1) cxPath =
      (.ok (), w1) := hinit
  have hd : drive cxEnv w1 = (.done, w2) := hdrive
  have hw1 : c2W1 = w1 := by
    unfold c2W1
    rw [hi]
  have hres : c2res = (.done, w2) := by
    unfold c2res
    rw [hw1, hd]
  rw [hres]
  refine ⟨rfl, hrfc, ?_, ?_⟩
  · rw [hlens]
  · rw [hfin]
    exact List.replicate_one

/-- C2 (corrected): the rollover fires as soon as `index` reaches 10000
after a part is appended, i.e. once 9999 parts have been uploaded to the
object — an object therefore holds at most 9999 parts, not 10000.  After
each rollover `index` is reset to 1, the parts list is cleared, the file
count is bumped and a fresh key is assigned, while `pos` keeps the advanced
read position; and over a run with `m` rollovers, the `m + 1` keys the run
assigns (the initial object plus one per rollover) are pairwise distinct,
so every new key differs from all prior keys of the run. -/
theorem C2_thm (clock : Nat → Timestamp) (sha : Bytes → PyStr) (bucket logPath : PyStr)
    (file : Bytes) (c m : Nat) (hc : 1 ≤ c) (hm : 1 ≤ m)
    (hS : file.length = 9999 * c * m) :
    ∃ w1 w2,
      initiate_upload (okEnv clock sha) (freshWorld bucket file (c : Int)) logPath =
        (.ok (), w1) ∧
      drive (okEnv clock sha) w1 = (.done, w2) ∧
      finalizePartNums w2.trace = List.replicate m (List.range' 1 9999) ∧
      uploadBodyLens w2.trace = List.replicate (9999 * m) c ∧
      w2.h.remote_file_count = m ∧
      w2.h.multipart_upload_config.index = 1 ∧
      w2.h.uploaded_parts = [] ∧
      w2.h.multipart_upload_config.pos = ((9999 * c * m : Nat) : Int) ∧
      createKeys w2.trace =
        (List.range (m + 1)).map (fun j => some (namedKey (pathName logPath) (clock j) j)) ∧
      (createKeys w2.trace).Pairwise (· ≠ ·) :=
  runID_rolls clock sha bucket logPath file c m hc hm hS

theorem C2_thm_witness :
    1 ≤ 1 ∧
    (List.replicate 9999 (0 : Nat)).length = 9999 * 1 * 1 ∧
    (∃ w1 w2,
      initiate_upload (okEnv cxClock (fun _ => []))
          (freshWorld cxBucket (List.replicate 9999 0) ((1 : Nat) : Int)) cxPath =
        (.ok (), w1) ∧
      drive (okEnv cxClock (fun _ => [])) w1 = (.done, w2) ∧
      finalizePartNums w2.trace = List.replicate 1 (List.range' 1 9999) ∧
      uploadBodyLens w2.trace = List.replicate (9999 * 1) 1 ∧
      w2.h.remote_file_count = 1 ∧
      w2.h.multipart_upload_config.index = 1 ∧
      w2.h.uploaded_parts = [] ∧
      w2.h.multipart_upload_config.pos = ((9999 * 1 * 1 : Nat) : Int) ∧
      createKeys w2.trace =
        (List.range (1 + 1)).map (fun j => some (namedKey (pathName cxPath) (cxClock j) j)) ∧
      (createKeys w2.trace).Pairwise (· ≠ ·)) :=
  ⟨le_refl 1, by rw [List.length_replicate],
    C2_thm cxClock (fun _ => []) cxBucket cxPath (List.replicate 9999 0) 1 1 (le_refl 1)
      (le_refl 1) (by rw [List.length_replicate])⟩

/-- C4 (corrected): after a part-upload failure during a drive call the
session is NOT reset: `upload_in_progress` stays `true`, so a subsequent
`initiate_upload` fails with the already-in-progress error instead of
succeeding. -/
theorem C4_thm (clock : Nat → Timestamp) (sha : Bytes → PyStr) (e : PyErr)
    (w : World) (S p i u c : Nat) (lp logPath : PyStr)
    (hfile : w.file.length = S)
    (hsz : w.h.multipart_upload_config.size = (c : Int))
    (hpos : w.h.multipart_upload_config.pos = (p : Int))
    (hidx : w.h.multipart_upload_config.index = i)
    (hu : w.h.upload_id = some u) (hu0 : u ≠ 0)
    (hlp : w.h.log_path = some lp)
    (hip : w.h.upload_in_progress = true)
    (hcond : p + c ≤ S) :
    ∃ w',
      drive (failEnvOf e clock sha) w = (.failed (.partExc i e), w') ∧
      w'.h.upload_in_progress = true ∧
      initiate_upload (failEnvOf e clock sha) w' logPath =
        (.error (.exc msgAlreadyInProgress), w') :=
  ⟨_, drive_fail_first clock sha e w S p i u c lp hfile hsz hpos hidx hu hu0 hlp hcond,
    hip, initiate_blocked _ _ logPath hip⟩

theorem C4_thm_witness :
    cxFailW1.file.length = 2 ∧
    cxFailW1.h.multipart_upload_config.size = ((2 : Nat) : Int) ∧
    cxFailW1.h.multipart_upload_config.pos = ((0 : Nat) : Int) ∧
    cxFailW1.h.multipart_upload_config.index = 1 ∧
    cxFailW1.h.upload_id = some 1 ∧
    (1 : Nat) ≠ 0 ∧
    cxFailW1.h.log_path = some cxPath ∧
    cxFailW1.h.upload_in_progress = true ∧
    0 + 2 ≤ 2 ∧
    (∃ w',
      drive (failEnvOf (.exc "u".toList) cxClock (fun _ => [])) cxFailW1 =
        (.failed (.partExc 1 (.exc "u".toList)), w') ∧
      w'.h.upload_in_progress = true ∧
      initiate_upload (failEnvOf (.exc "u".toList) cxClock (fun _ => [])) w' cxPath =
        (.error (.exc msgAlreadyInProgress), w')) :=
  ⟨by decide, by decide, by decide, by decide, by decide, by decide, by decide, by decide,
    by decide,
    C4_thm cxClock (fun _ => []) (.exc "u".toList) cxFailW1 2 0 1 1 2 cxPath cxPath
      (by decide) (by decide) (by decide) (by decide) (by decide) (by decide) (by decide)
      (by decide) (by decide)⟩

/-- C5 (corrected): a `NoCredentialsError` raised by the service's
`upload_part` call is caught by the helper's generic handler, which DOES
issue abort calls (two reach the service before the error escapes the
drive call) and re-raises the error wrapped with the failing part index —
so what propagates is the wrapped part error, not the bare credential
error. -/
theorem C5_thm (clock : Nat → Timestamp) (sha : Bytes → PyStr)
    (w : World) (S p i u c : Nat) (lp : PyStr)
    (hfile : w.file.length = S)
    (hsz : w.h.multipart_upload_config.size = (c : Int))
    (hpos : w.h.multipart_upload_config.pos = (p : Int))
    (hidx : w.h.multipart_upload_config.index = i)
    (hu : w.h.upload_id = some u) (hu0 : u ≠ 0)
    (hlp : w.h.log_path = some lp)
    (hcond : p + c ≤ S) :
    ∃ w',
      drive (failEnvOf .noCredentials clock sha) w =
        (.failed (.partExc i .noCredentials), w') ∧
      (abortCalls w'.trace).length = (abortCalls w.trace).length + 2 ∧
      LoopOut.failed (.partExc i .noCredentials) ≠ LoopOut.failed .noCredentials := by
  refine ⟨_, drive_fail_first clock sha .noCredentials w S p i u c lp hfile hsz hpos hidx
    hu hu0 hlp hcond, ?_, by simp⟩
  dsimp only
  simp [abortCalls_append, abortCalls_cons_upload, abortCalls_cons_abort, abortCalls_nil]

theorem C5_thm_witness :
    cxNoCredW1.file.length = 2 ∧
    cxNoCredW1.h.multipart_upload_config.size = ((2 : Nat) : Int) ∧
    cxNoCredW1.h.multipart_upload_config.pos = ((0 : Nat) : Int) ∧
    cxNoCredW1.h.multipart_upload_config.index = 1 ∧
    cxNoCredW1.h.upload_id = some 1 ∧
    (1 : Nat) ≠ 0 ∧
    cxNoCredW1.h.log_path = some cxPath ∧
    0 + 2 ≤ 2 ∧
    (∃ w',
      drive (failEnvOf .noCredentials cxClock (fun _ => [])) cxNoCredW1 =
        (.failed (.partExc 1 .noCredentials), w') ∧
      (abortCalls w'.trace).length = (abortCalls cxNoCredW1.trace).length + 2 ∧
      LoopOut.failed (.partExc 1 .noCredentials) ≠ LoopOut.failed .noCredentials) :=
  ⟨by decide, by decide, by decide, by decide, by decide, by decide, by decide, by decide,
    C5_thm cxClock (fun _ => []) cxNoCredW1 2 0 1 1 2 cxPath
      (by decide) (by decide) (by decide) (by decide) (by decide) (by decide) (by decide)
      (by decide)⟩

/-- C6 (corrected): after a failed part upload the engine does issue an
abort for the active token and raises an error naming the failing part
index and wrapping the cause — but the abort call is NOT best-effort: when
the abort itself fails, its error replaces the part-upload error and is
what reaches the caller. -/
theorem C6_thm (clock : Nat → Timestamp) (sha : Bytes → PyStr) (e e2 : PyErr)
    (he2 : e2 ≠ .noCredentials)
    (w : World) (S p i u c : Nat) (lp : PyStr)
    (hfile : w.file.length = S)
    (hsz : w.h.multipart_upload_config.size = (c : Int))
    (hpos : w.h.multipart_upload_config.pos = (p : Int))
    (hidx : w.h.multipart_upload_config.index = i)
    (hu : w.h.upload_id = some u) (hu0 : u ≠ 0)
    (hlp : w.h.log_path = some lp)
    (hcond : p + c ≤ S) :
    (∃ w', drive (failEnvOf e clock sha) w = (.failed (.partExc i e), w')) ∧
    (∃ w'', drive (failAbortEnvOf e e2 clock sha) w = (.failed e2, w'')) :=
  ⟨⟨_, drive_fail_first clock sha e w S p i u c lp hfile hsz hpos hidx hu hu0 hlp hcond⟩,
    ⟨_, drive_fail_abort clock sha e e2 he2 w S p i u c lp hfile hsz hpos hidx hu hu0 hlp
      hcond⟩⟩

theorem C6_thm_witness :
    PyErr.exc "a".toList ≠ PyErr.noCredentials ∧
    cxAbortW1.file.length = 2 ∧
    cxAbortW1.h.multipart_upload_config.size = ((2 : Nat) : Int) ∧
    cxAbortW1.h.multipart_upload_config.pos = ((0 : Nat) : Int) ∧
    cxAbortW1.h.multipart_upload_config.index = 1 ∧
    cxAbortW1.h.upload_id = some 1 ∧
    (1 : Nat) ≠ 0 ∧
    cxAbortW1.h.log_path = some cxPath ∧
    0 + 2 ≤ 2 ∧
    ((∃ w', drive (failEnvOf (.exc "u".toList) cxClock (fun _ => [])) cxAbortW1 =
        (.failed (.partExc 1 (.exc "u".toList)), w')) ∧
      (∃ w'', drive (failAbortEnvOf (.exc "u".toList) (.exc "a".toList) cxClock
          (fun _ => [])) cxAbortW1 = (.failed (.exc "a".toList), w''))) :=
  ⟨by decide, by decide, by decide, by decide, by decide, by decide, by decide, by decide,
    by decide,
    C6_thm cxClock (fun _ => []) (.exc "u".toList) (.exc "a".toList) (by decide) cxAbortW1
      2 0 1 1 2 cxPath (by decide) (by decide) (by decide) (by decide) (by decide)
      (by decide) (by decide) (by decide)⟩

/-- C10 (confirmed): when the service's `upload_part` call fails during the
drive loop, the abort call is issued twice — once inside the per-part
helper and once in the drive loop's exception handler — with the same
bucket, key and upload token, before the error reaches the caller. -/
theorem C10_thm (clock : Nat → Timestamp) (sha : Bytes → PyStr) (e : PyErr)
    (w : World) (S p i u c : Nat) (lp : PyStr)
    (hfile : w.file.length = S)
    (hsz : w.h.multipart_upload_config.size = (c : Int))
    (hpos : w.h.multipart_upload_config.pos = (p : Int))
    (hidx : w.h.multipart_upload_config.index = i)
    (hu : w.h.upload_id = some u) (hu0 : u ≠ 0)
    (hlp : w.h.log_path = some lp)
    (hcond : p + c ≤ S) :
    ∃ w',
      drive (failEnvOf e clock sha) w = (.failed (.partExc i e), w') ∧
      abortCalls w'.trace = abortCalls w.trace ++
        [S3Call.abortMultipartUpload w.h.bucket w.h.obj_key (some u),
         S3Call.abortMultipartUpload w.h.bucket w.h.obj_key (some u)] := by
  refine ⟨_, drive_fail_first clock sha e w S p i u c lp hfile hsz hpos hidx hu hu0 hlp
    hcond, ?_⟩
  dsimp only
  simp [abortCalls_append, abortCalls_cons_upload, abortCalls_cons_abort, abortCalls_nil]

theorem C10_thm_witness :
    cxFailW2.file.length = 2 ∧
    cxFailW2.h.multipart_upload_config.size = ((2 : Nat) : Int) ∧
    cxFailW2.h.multipart_upload_config.pos = ((0 : Nat) : Int) ∧
    cxFailW2.h.multipart_upload_config.index = 1 ∧
    cxFailW2.h.upload_id = some 1 ∧
    (1 : Nat) ≠ 0 ∧
    cxFailW2.h.log_path = some cxPath ∧
    0 + 2 ≤ 2 ∧
    (∃ w',
      drive (failEnvOf (.exc "u".toList) cxClock (fun _ => [])) cxFailW2 =
        (.failed (.partExc 1 (.exc "u".toList)), w') ∧
      abortCalls w'.trace = abortCalls cxFailW2.trace ++
        [S3Call.abortMultipartUpload cxFailW2.h.bucket cxFailW2.h.obj_key (some 1),
         S3Call.abortMultipartUpload cxFailW2.h.bucket cxFailW2.h.obj_key (some 1)]) :=
  ⟨by decide, by decide, by decide, by decide, by decide, by decide, by decide, by decide,
    C10_thm cxClock (fun _ => []) (.exc "u".toList) cxFailW2 2 0 1 1 2 cxPath
      (by decide) (by decide) (by decide) (by decide) (by decide) (by decide) (by decide)
      (by decide)⟩

/-- C7 (corrected): a successful `initiate_upload` marks the session
active, obtains the upload token and a key computed by the naming scheme —
but it does NOT reset the cursor, the next part index or the parts list:
`multipart_upload_config` and `uploaded_parts` are carried over unchanged
from the previous session. -/
theorem C7_thm (clock : Nat → Timestamp) (sha : Bytes → PyStr) (w : World) (logPath : PyStr)
    (hip : w.h.upload_in_progress = false) :
    ∃ w',
      initiate_upload (okEnv clock sha) w logPath = (.ok (), w') ∧
      w'.h.upload_in_progress = true ∧
      w'.h.upload_id = some 1 ∧
      w'.h.obj_key = some (namedKey (pathName logPath) (clock w.clk) w.h.remote_file_count) ∧
      w'.h.multipart_upload_config = w.h.multipart_upload_config ∧
      w'.h.uploaded_parts = w.h.uploaded_parts :=
  ⟨_, initiate_ok clock sha w logPath hip, rfl, rfl, rfl, rfl, rfl⟩

theorem C7_thm_witness :
    sessW3.h.upload_in_progress = false ∧
    (∃ w',
      initiate_upload (okEnv cxClock (fun _ => [])) sessW3 cxPath = (.ok (), w') ∧
      w'.h.upload_in_progress = true ∧
      w'.h.upload_id = some 1 ∧
      w'.h.obj_key =
        some (namedKey (pathName cxPath) (cxClock sessW3.clk) sessW3.h.remote_file_count) ∧
      w'.h.multipart_upload_config = sessW3.h.multipart_upload_config ∧
      w'.h.uploaded_parts = sessW3.h.uploaded_parts) :=
  ⟨by decide, C7_thm cxClock (fun _ => []) sessW3 cxPath (by decide)⟩

/-- C8 (confirmed): with a base name and folder in place, the generated key
is `folder ++ slash ++ log underscore timestamp [-count] ++ extension` when
the base name contains a dot (the text from the first dot on is kept as the
suffix, the text before it is replaced by the generated stem), and
`folder ++ slash ++ timestamp [-count] underscore name` when it does not;
keys generated for distinct rollover counts of the same file and timestamp
are distinct. -/
theorem C8_thm (h1 h2 : HandlerState) (ts : Timestamp) (folder name : PyStr) (c1 c2 : Nat)
    (e1 : h1.log_name = some name) (f1 : h1.remote_folder_path = some folder)
    (r1 : h1.remote_file_count = c1)
    (e2 : h2.log_name = some name) (f2 : h2.remote_folder_path = some folder)
    (r2 : h2.remote_file_count = c2) (hne : c1 ≠ c2) :
    remote_log_naming h1 ts = .ok (keyOf folder name ts c1) ∧
    (∀ i, strFind '.' name = some i →
      keyOf folder name ts c1 =
        folder ++ '/' :: ("log_".toList ++ uploadTimeOf ts c1 ++ name.drop i)) ∧
    (strFind '.' name = none →
      keyOf folder name ts c1 = folder ++ '/' :: (uploadTimeOf ts c1 ++ '_' :: name)) ∧
    remote_log_naming h1 ts ≠ remote_log_naming h2 ts := by
  have k1 := remote_log_naming_ok h1 ts name folder e1 f1
  have k2 := remote_log_naming_ok h2 ts name folder e2 f2
  rw [r1] at k1
  rw [r2] at k2
  refine ⟨k1, ?_, ?_, ?_⟩
  · intro i hi
    simp only [keyOf, hi]
  · intro hn
    simp only [keyOf, hn]
  · rw [k1, k2]
    intro h
    exact keyOf_count_inj folder name ts hne (Except.ok.inj h)

theorem C8_thm_witness :
    ({ mkHandler cxBucket with
        log_name := some ("app.log".toList)
        remote_folder_path := some ("logs/2024/1/1".toList) } : HandlerState).log_name =
      some ("app.log".toList) ∧
    (0 : Nat) ≠ 1 ∧
    (remote_log_naming
        { mkHandler cxBucket with
          log_name := some ("app.log".toList)
          remote_folder_path := some ("logs/2024/1/1".toList) } (cxClock 0) =
      .ok (keyOf ("logs/2024/1/1".toList) ("app.log".toList) (cxClock 0) 0) ∧
    (∀ i, strFind '.' ("app.log".toList) = some i →
      keyOf ("logs/2024/1/1".toList) ("app.log".toList) (cxClock 0) 0 =
        ("logs/2024/1/1".toList) ++ '/' ::
          ("log_".toList ++ uploadTimeOf (cxClock 0) 0 ++ ("app.log".toList).drop i)) ∧
    (strFind '.' ("app.log".toList) = none →
      keyOf ("logs/2024/1/1".toList) ("app.log".toList) (cxClock 0) 0 =
        ("logs/2024/1/1".toList) ++ '/' ::
          (uploadTimeOf (cxClock 0) 0 ++ '_' :: ("app.log".toList))) ∧
    remote_log_naming
        { mkHandler cxBucket with
          log_name := some ("app.log".toList)
          remote_folder_path := some ("logs/2024/1/1".toList) } (cxClock 0) ≠
      remote_log_naming
        { mkHandler cxBucket with
          log_name := some ("app.log".toList)
          remote_folder_path := some ("logs/2024/1/1".toList)
          remote_file_count := 1 } (cxClock 0)) :=
  ⟨rfl, by decide,
    C8_thm
      { mkHandler cxBucket with
        log_name := some ("app.log".toList)
        remote_folder_path := some ("logs/2024/1/1".toList) }
      { mkHandler cxBucket with
        log_name := some ("app.log".toList)
        remote_folder_path := some ("logs/2024/1/1".toList)
        remote_file_count := 1 }
      (cxClock 0) ("logs/2024/1/1".toList) ("app.log".toList) 0 1
      rfl rfl rfl rfl rfl rfl (by decide)⟩

end CLP
